import Mathlib

/-!
Verification of the trixie compositor core against its specification.

Shallow embedding conventions:
 - Rust `u32`/`u64`/`usize` are modelled as `Nat`; where wrap-around matters
   the reduction modulo `2 ^ 32` is written explicitly.
 - Rust `i32` is modelled as `Int`.
 - `f32`/`f64` arithmetic is modelled over `ℚ` (the claims under scrutiny are
   insensitive to rounding; where a claim itself is about rounding this is
   noted at the theorem).
 - `std::time::Instant` is modelled as `Nat` (microseconds); `Duration` as `Nat`.
 - `HashMap<String, V>` is modelled as an association list with
   insert-replaces-existing-key semantics.
 - Fallible or externally-determined steps (DRM errors, the HarfBuzz shaper,
   the `ab_glyph` outline rasteriser) are made explicit inputs of the
   functions that react to them.
-/

namespace Trixie

/-
═══════════════════════════════════════════════════════════════════════════════
SECTION A — TWM state: main_ratio and GrowMain / ShrinkMain
(src/twm_drop_in.rs, `TwmState::dispatch`, lines 713-721)
═══════════════════════════════════════════════════════════════════════════════
-/

/-- Layout enum from twm_drop_in.rs section 3. -/
inductive Layout where
  | bsp
  | columns
  | rows
  | monocle
deriving DecidableEq, Repr

/-- Workspace from twm_drop_in.rs: pane list, focus, layout, main_ratio, gap.
`main_ratio` is an `f32` in the source, modelled over `ℚ`. -/
structure Workspace where
  panes : List Nat
  focused : Option Nat
  layout : Layout
  main_ratio : ℚ
  gap : Nat
deriving DecidableEq, Repr

/-- The slice of `TwmState` that the ratio actions touch. -/
structure TwmRatioState where
  workspaces : List Workspace
  active_ws : Nat
  dirty : Bool
deriving DecidableEq, Repr

/-- Update the element at index `i` of a list in place (no-op out of range). -/
def updAt {α : Type} : List α → Nat → (α → α) → List α
  | [], _, _ => []
  | x :: xs, 0, f => f x :: xs
  | x :: xs, n + 1, f => x :: updAt xs n f

/-- Main ratio of the active workspace (the value `workspaces[active_ws].main_ratio`
reads in the source; reading out of range is irrelevant to the claims). -/
def TwmRatioState.mainRatio (s : TwmRatioState) : ℚ :=
  match s.workspaces[s.active_ws]? with
  | some w => w.main_ratio
  | none => 0

/-- The `Action::GrowMain` arm of `TwmState::dispatch`:
`main_ratio = (main_ratio + 0.05).min(0.9)`, then `dirty = true`. -/
def dispatchGrowMain (s : TwmRatioState) : TwmRatioState :=
  { s with
    workspaces :=
      updAt s.workspaces s.active_ws
        (fun w => { w with main_ratio := min (w.main_ratio + 5/100) (9/10) })
    dirty := true }

/-- The `Action::ShrinkMain` arm of `TwmState::dispatch`:
`main_ratio = (main_ratio - 0.05).max(0.1)`, then `dirty = true`. -/
def dispatchShrinkMain (s : TwmRatioState) : TwmRatioState :=
  { s with
    workspaces :=
      updAt s.workspaces s.active_ws
        (fun w => { w with main_ratio := max (w.main_ratio - 5/100) (1/10) })
    dirty := true }

/-- A one-workspace state with the given main ratio, used as a concrete input. -/
def ratioState (r : ℚ) : TwmRatioState :=
  { workspaces := [{ panes := [1], focused := some 1, layout := .bsp,
                     main_ratio := r, gap := 1 }]
    active_ws := 0
    dirty := false }

/-
═══════════════════════════════════════════════════════════════════════════════
SECTION B — Frame pacing and the pending-frame flag
(src/state.rs, `KittyCompositor::render_surface` lines 189-358 and
`KittyCompositor::frame_finish` lines 360-369)
═══════════════════════════════════════════════════════════════════════════════
-/

/-- Per-output frame state from state.rs `SurfaceData` (the fields the frame
state machine touches). Instants are microseconds as `Nat`. -/
structure SurfaceData where
  next_frame_time : Nat
  pending_frame : Bool
  frame_duration : Nat
deriving DecidableEq, Repr

/-- Outcome of one render attempt, as decided by the environment
(`render_frame` result, frame emptiness, `queue_frame` result). -/
inductive RenderOutcome where
  | frameEmpty
  | renderErr
  | queueSucceeded
  | queueFailed
deriving DecidableEq, Repr

/-- What one step did: whether `render_frame` ran, whether `queue_frame` was
called, whether it succeeded, and whether `frame_submitted` was called. -/
structure StepLog where
  renderFrameCalled : Bool
  queueCalled : Bool
  queueOkFlag : Bool
  submitCalled : Bool
deriving DecidableEq, Repr

def StepLog.none' : StepLog :=
  { renderFrameCalled := false, queueCalled := false,
    queueOkFlag := false, submitCalled := false }

/-- Shallow embedding of `render_surface` restricted to the frame state
machine: the early return `if surface.pending_frame || now < surface.next_frame_time`,
the `render_frame`/`queue_frame` branch, and the unconditional
`surface.next_frame_time = now + surface.frame_duration` at the end. -/
def render_surface (now : Nat) (o : RenderOutcome) (s : SurfaceData) :
    SurfaceData × StepLog :=
  if s.pending_frame || decide (now < s.next_frame_time) then
    (s, StepLog.none')
  else
    match o with
    | .frameEmpty =>
        ({ s with next_frame_time := now + s.frame_duration },
         { StepLog.none' with renderFrameCalled := true })
    | .renderErr =>
        ({ s with next_frame_time := now + s.frame_duration },
         { StepLog.none' with renderFrameCalled := true })
    | .queueSucceeded =>
        ({ s with pending_frame := true,
                  next_frame_time := now + s.frame_duration },
         { renderFrameCalled := true, queueCalled := true,
           queueOkFlag := true, submitCalled := false })
    | .queueFailed =>
        ({ s with next_frame_time := now + s.frame_duration },
         { renderFrameCalled := true, queueCalled := true,
           queueOkFlag := false, submitCalled := false })

/-- Shallow embedding of `frame_finish`: clear `pending_frame`, then call
`compositor.frame_submitted()` (its own error is only logged). -/
def frame_finish (s : SurfaceData) : SurfaceData × StepLog :=
  ({ s with pending_frame := false },
   { StepLog.none' with submitCalled := true })

/-- One event of a per-surface trace: a timer-driven render attempt with its
environment-chosen outcome, or a VBlank (`frame_finish`). -/
inductive FrameEv where
  | render (now : Nat) (o : RenderOutcome)
  | finish
deriving DecidableEq, Repr

def stepEv (s : SurfaceData) : FrameEv → SurfaceData × StepLog
  | .render now o => render_surface now o s
  | .finish => frame_finish s

/-- Cumulative call counts over a trace. -/
structure Counts where
  queueCalls : Nat
  okQueues : Nat
  submits : Nat
deriving DecidableEq, Repr

def Counts.zero : Counts := ⟨0, 0, 0⟩

def Counts.bump (c : Counts) (l : StepLog) : Counts :=
  { queueCalls := c.queueCalls + (if l.queueCalled then 1 else 0)
    okQueues := c.okQueues + (if l.queueOkFlag then 1 else 0)
    submits := c.submits + (if l.submitCalled then 1 else 0) }

def runFrom (s : SurfaceData) (c : Counts) : List FrameEv → SurfaceData × Counts
  | [] => (s, c)
  | e :: t =>
      let p := stepEv s e
      runFrom p.1 (c.bump p.2) t

/-- Run a trace from a starting surface state with zero counts. -/
def runTrace (s : SurfaceData) (t : List FrameEv) : SurfaceData × Counts :=
  runFrom s Counts.zero t

/-
═══════════════════════════════════════════════════════════════════════════════
SECTION C — Embedded-manager maps
(src/embedded_window.rs, `EmbeddedManager`)
═══════════════════════════════════════════════════════════════════════════════
-/

/-- Pixel-space bounding rect for an embedded surface (i32 fields). -/
structure EmbeddedPlacement where
  x : Int
  y : Int
  w : Int
  h : Int
deriving DecidableEq, Repr

structure PendingPlacement where
  placement : EmbeddedPlacement
deriving DecidableEq, Repr

/-- Per-surface entry; Wayland handles are opaque ids, the GL texture is an
opaque id option. -/
structure EmbeddedEntry where
  surface : Nat
  toplevel : Nat
  placement : EmbeddedPlacement
  texture : Option Nat
  commit_counter : Nat
  mapped : Bool
deriving DecidableEq, Repr

/-- HashMap-insert over an association list: replace the existing binding for
the key, or append a new one. -/
def alInsert {α : Type} (k : String) (v : α) :
    List (String × α) → List (String × α)
  | [] => [(k, v)]
  | (k', v') :: t => if k' = k then (k, v) :: t else (k', v') :: alInsert k v t

/-- HashMap-remove over an association list. -/
def alRemove {α : Type} (k : String) (l : List (String × α)) :
    List (String × α) :=
  l.filter (fun kv => !(kv.1 = k : Bool))

/-- HashMap lookup over an association list. -/
def alLookup {α : Type} (k : String) : List (String × α) → Option α
  | [] => none
  | (k', v) :: t => if k' = k then some v else alLookup k t

def alContains {α : Type} (k : String) (l : List (String × α)) : Bool :=
  (alLookup k l).isSome

/-- HashMap `get_mut`-style in-place update (keys unchanged). -/
def alUpdate {α : Type} (k : String) (f : α → α) (l : List (String × α)) :
    List (String × α) :=
  l.map (fun kv => if kv.1 = k then (kv.1, f kv.2) else kv)

/-- EmbeddedManager from embedded_window.rs: live entries, pending
reservations and CPU-side shared frames, all keyed by app_id. -/
structure EmbeddedManager where
  entries : List (String × EmbeddedEntry)
  pending : List (String × PendingPlacement)
  shared_frames : List (String × Nat)
deriving DecidableEq, Repr

def EmbeddedManager.empty : EmbeddedManager := ⟨[], [], []⟩

/-- `EmbeddedManager::request_placement` (lines 87-98): unconditionally insert
into `pending`. -/
def request_placement (app : String) (p : EmbeddedPlacement)
    (m : EmbeddedManager) : EmbeddedManager :=
  { m with pending := alInsert app ⟨p⟩ m.pending }

/-- `EmbeddedManager::try_claim` (lines 105-144): if no pending reservation,
return false; otherwise remove the reservation, send the configure (external
effect), insert the fresh entry and register a shared frame if absent. -/
def try_claim (app : String) (surface toplevel : Nat)
    (m : EmbeddedManager) : Bool × EmbeddedManager :=
  match alLookup app m.pending with
  | none => (false, m)
  | some pend =>
      (true,
       { entries := alInsert app
           { surface := surface, toplevel := toplevel,
             placement := pend.placement, texture := none,
             commit_counter := 0, mapped := false } m.entries
         pending := alRemove app m.pending
         shared_frames :=
           if alContains app m.shared_frames then m.shared_frames
           else alInsert app 0 m.shared_frames })

/-- `EmbeddedManager::update_placement` (lines 205-226): update the live
entry's placement in place (and send a configure, an external effect), else
update the pending reservation in place. -/
def update_placement (app : String) (p : EmbeddedPlacement)
    (m : EmbeddedManager) : EmbeddedManager :=
  if alContains app m.entries then
    { m with entries := alUpdate app (fun e => { e with placement := p }) m.entries }
  else if alContains app m.pending then
    { m with pending := alUpdate app (fun _ => ⟨p⟩) m.pending }
  else m

/-- `EmbeddedManager::remove` (lines 230-234). -/
def managerRemove (app : String) (m : EmbeddedManager) : EmbeddedManager :=
  { entries := alRemove app m.entries
    pending := alRemove app m.pending
    shared_frames := alRemove app m.shared_frames }

/-- One EmbeddedManager operation of the public API named by the claim. -/
inductive EmOp where
  | reqPlacement (app : String) (p : EmbeddedPlacement)
  | claim (app : String) (surface toplevel : Nat)
  | updPlacement (app : String) (p : EmbeddedPlacement)
  | rem (app : String)
deriving DecidableEq, Repr

def applyOp (m : EmbeddedManager) : EmOp → EmbeddedManager
  | .reqPlacement app p => request_placement app p m
  | .claim app s t => (try_claim app s t m).2
  | .updPlacement app p => update_placement app p m
  | .rem app => managerRemove app m

def runOps (m : EmbeddedManager) : List EmOp → EmbeddedManager
  | [] => m
  | op :: t => runOps (applyOp m op) t

/-- Disjointness of the two maps: no app_id is both claimed and pending. -/
def managerDisjoint (m : EmbeddedManager) : Prop :=
  ∀ app, ¬(alContains app m.entries = true ∧ alContains app m.pending = true)

/-- An operation sequence that never requests a placement for an already
claimed app_id (checked against the state at which the operation runs). -/
def goodOps (m : EmbeddedManager) : List EmOp → Bool
  | [] => true
  | op :: t =>
      (match op with
       | .reqPlacement app _ => !(alContains app m.entries)
       | _ => true) && goodOps (applyOp m op) t

/-
═══════════════════════════════════════════════════════════════════════════════
SECTION D — Shared-frame shm writer
(src/shared_frame_shm.rs, `ShmWriter::write_frame` lines 89-101)
═══════════════════════════════════════════════════════════════════════════════
-/

/-- `MAX_PIXELS = 3840 * 2160 * 4` (a byte count, despite the name). -/
def MAX_PIXELS : Nat := 3840 * 2160 * 4

/-- Size of `ShmHeader` (`repr(C)`: AtomicU64 + AtomicU32 + AtomicU32). -/
def headerSize : Nat := 16

/-- `SHM_SIZE = size_of::<ShmHeader>() + MAX_PIXELS`. -/
def SHM_SIZE : Nat := headerSize + MAX_PIXELS

/-- Byte count of `write_frame`:
`((width * height * 4) as usize).min(MAX_PIXELS).min(pixels.len())`.
The multiplication is `u32` arithmetic, so it wraps modulo `2 ^ 32`
(release-profile semantics; a debug build would panic on overflow). -/
def byte_count (width height pixelsLen : Nat) : Nat :=
  min (min ((width * height * 4) % 2 ^ 32) MAX_PIXELS) pixelsLen

/-- One store performed by `write_frame`, in program order. -/
inductive ShmStore where
  | storeSerial (v : Nat)
  | storeWidth (v : Nat)
  | storeHeight (v : Nat)
  | storePixels (byteCount : Nat)
deriving DecidableEq, Repr

/-- The store sequence of `write_frame`: load `prev`, store `prev | 1`, store
width and height, copy `byte_count` bytes into the pixel region, store
`prev + 2`. -/
def write_frame_stores (prev width height pixelsLen : Nat) : List ShmStore :=
  [ .storeSerial (prev ||| 1),
    .storeWidth width,
    .storeHeight height,
    .storePixels (byte_count width height pixelsLen),
    .storeSerial (prev + 2) ]

/-- Value of the serial field after a list of stores (starting from `init`). -/
def serialAfter (init : Nat) (l : List ShmStore) : Nat :=
  l.foldl (fun s e => match e with | .storeSerial v => v | _ => s) init

/-
═══════════════════════════════════════════════════════════════════════════════
SECTION E — TWM chrome draw commands
(src/twm_drop_in.rs, `CellBuffer::to_draw_cmds` lines 105-146 and the grid
recompute in `TwmState::build_frame_cmds` lines 755-804; DrawCmd / Rect /
Color / Style from src/pixelui.rs)
═══════════════════════════════════════════════════════════════════════════════
-/

/-- Color(u8, u8, u8, u8) from pixelui.rs. -/
structure PixColor where
  r : Nat
  g : Nat
  b : Nat
  a : Nat
deriving DecidableEq, Repr

def PixColor.RESET : PixColor := ⟨0, 0, 0, 0⟩

/-- Rect with u32 fields from pixelui.rs. -/
structure PixRect where
  x : Nat
  y : Nat
  w : Nat
  h : Nat
deriving DecidableEq, Repr

structure PixStyle where
  fg : PixColor
  bg : PixColor
  bold : Bool
  italic : Bool
deriving DecidableEq, Repr

/-- DrawCmd from pixelui.rs (all five variants). -/
inductive DrawCmd where
  | fillRect (rect : PixRect) (color : PixColor)
  | strokeRect (rect : PixRect) (color : PixColor) (thickness : Nat)
  | text (x y : Nat) (s : String) (style : PixStyle) (max_width : Option Nat)
  | hline (x y w : Nat) (color : PixColor)
  | vline (x y h : Nat) (color : PixColor)
deriving DecidableEq, Repr

/-- One rendered terminal cell (TwmCell from twm_drop_in.rs). -/
structure TwmCell where
  ch : Char
  fg : Nat × Nat × Nat
  bg : Nat × Nat × Nat
  bold : Bool
  italic : Bool
deriving DecidableEq, Repr

def TwmCell.default : TwmCell :=
  ⟨' ', (205, 214, 244), (30, 30, 46), false, false⟩

/-- Flat cell grid (CellBuffer from twm_drop_in.rs). -/
structure CellBuffer where
  cols : Nat
  rows : Nat
  cells : List TwmCell
deriving DecidableEq, Repr

/-- Commands emitted for the single cell at (row, col) by `to_draw_cmds`:
skip the cell if its pixel origin is outside the viewport, clip the background
fill to the viewport, emit the background unless it is the pure-black-space
hole, emit the glyph unless space or NUL. -/
def cellCmds (cb : CellBuffer) (cell_w cell_h vp_w vp_h row col : Nat) :
    List DrawCmd :=
  let px := col * cell_w
  let py := row * cell_h
  if px ≥ vp_w ∨ py ≥ vp_h then []
  else
    let w := min cell_w (vp_w - px)
    let h := min cell_h (vp_h - py)
    let cell := (cb.cells.getD (row * cb.cols + col) TwmCell.default)
    let bgPart :=
      if cell.bg.1 = 0 ∧ cell.bg.2.1 = 0 ∧ cell.bg.2.2 = 0 ∧ cell.ch = ' '
      then []
      else [DrawCmd.fillRect ⟨px, py, w, h⟩ ⟨cell.bg.1, cell.bg.2.1, cell.bg.2.2, 255⟩]
    let glyphPart :=
      if cell.ch ≠ ' ' ∧ cell.ch ≠ Char.ofNat 0 then
        [DrawCmd.text px py (String.mk [cell.ch])
          { fg := ⟨cell.fg.1, cell.fg.2.1, cell.fg.2.2, 255⟩,
            bg := PixColor.RESET, bold := cell.bold, italic := cell.italic }
          (some cell_w)]
      else []
    bgPart ++ glyphPart

/-- `CellBuffer::to_draw_cmds`: iterate the grid row-major and emit per-cell
commands. -/
def to_draw_cmds (cb : CellBuffer) (cell_w cell_h vp_w vp_h : Nat) :
    List DrawCmd :=
  (List.range cb.rows).flatMap (fun row =>
    (List.range cb.cols).flatMap (fun col =>
      cellCmds cb cell_w cell_h vp_w vp_h row col))

/-- Grid recompute in `build_frame_cmds` (lines 778-784):
`cols = (vp_w / cell_w).max(1) as u16`, same for rows; dimensions keep their
previous value when a cell dimension is 0. The `as u16` cast truncates
modulo `2 ^ 16`. -/
def gridDims (oldCols oldRows cell_w cell_h vp_w vp_h : Nat) : Nat × Nat :=
  if 0 < cell_w ∧ 0 < cell_h then
    ((max (vp_w / cell_w) 1) % 2 ^ 16, (max (vp_h / cell_h) 1) % 2 ^ 16)
  else (oldCols, oldRows)

/-- Geometry of `TwmState::build_frame_cmds`: recompute the grid, then render
the chrome into the cell grid (the ratatui widget rendering only decides the
cell CONTENTS, given here as the `content` parameter) and convert it with
`to_draw_cmds`. -/
def build_frame_cmds_geom (content : List TwmCell)
    (oldCols oldRows cell_w cell_h vp_w vp_h : Nat) : List DrawCmd :=
  let d := gridDims oldCols oldRows cell_w cell_h vp_w vp_h
  to_draw_cmds ⟨d.1, d.2, content⟩ cell_w cell_h vp_w vp_h

/-- Containment of one draw command in the physical viewport, at the
granularity the command list itself determines: a FillRect's rectangle lies
inside `[0, vp_w) × [0, vp_h)` and a Text's origin does (the glyph run is
clipped to `max_width` by the renderer). -/
def cmdInViewport (cell_w vp_w vp_h : Nat) : DrawCmd → Prop
  | .fillRect r _ => r.x + r.w ≤ vp_w ∧ r.y + r.h ≤ vp_h
  | .text x y _ _ mw => x < vp_w ∧ y < vp_h ∧ mw = some cell_w
  | _ => True

/-
═══════════════════════════════════════════════════════════════════════════════
SECTION F — Shader registry and shader IPC
(src/shader_config.rs `ShaderRegistry::toggle` lines 240-245,
src/shader_ipc.rs `dispatch_command_with_registry` lines 221-250,
`dispatch_command` lines 252-258, `ShaderIpcSource::process_events`
lines 136-164)
═══════════════════════════════════════════════════════════════════════════════
-/

/-- ShaderEntry from shader_config.rs (uniform values over ℚ, mtime opaque). -/
structure ShaderEntry where
  name : String
  enabled : Bool
  path : String
  source : String
  uniforms : List (String × ℚ)
  last_modified : Option Nat
deriving DecidableEq, Repr

structure ShaderRegistry where
  entries : List ShaderEntry
deriving DecidableEq, Repr

/-- `ShaderRegistry::toggle` walks `entries`, flips the first entry with the
given name in place, and returns its new enabled state (None if absent). -/
def toggleEntries : List ShaderEntry → String → Option Bool × List ShaderEntry
  | [], _ => (none, [])
  | e :: t, n =>
      if e.name = n then (some (!e.enabled), { e with enabled := !e.enabled } :: t)
      else
        let r := toggleEntries t n
        (r.1, e :: r.2)

def ShaderRegistry.toggle (reg : ShaderRegistry) (n : String) :
    Option Bool × ShaderRegistry :=
  let r := toggleEntries reg.entries n
  (r.1, ⟨r.2⟩)

/-- `ShaderRegistry::set_enabled`. -/
def setEnabledEntries : List ShaderEntry → String → Bool →
    Option Unit × List ShaderEntry
  | [], _, _ => (none, [])
  | e :: t, n, b =>
      if e.name = n then (some (), { e with enabled := b } :: t)
      else
        let r := setEnabledEntries t n b
        (r.1, e :: r.2)

def ShaderRegistry.set_enabled (reg : ShaderRegistry) (n : String) (b : Bool) :
    Option Unit × ShaderRegistry :=
  let r := setEnabledEntries reg.entries n b
  (r.1, ⟨r.2⟩)

/-- IpcCommand from shader_ipc.rs. -/
inductive IpcCommand where
  | list
  | toggle (name : String)
  | enable (name : String)
  | disable (name : String)
  | reload
deriving DecidableEq, Repr

/-- IpcResponse from shader_ipc.rs: the ok variant carries
(name, enabled, path) per registered shader. -/
inductive IpcResponse where
  | ok (shaders : List (String × Bool × String))
  | err (error : String)
deriving DecidableEq, Repr

/-- `IpcResponse::ok(registry)`. -/
def respOk (reg : ShaderRegistry) : IpcResponse :=
  .ok (reg.entries.map (fun e => (e.name, e.enabled, e.path)))

/-- A single ASCII apostrophe, used by the not-found error message. -/
def sq : String := String.mk [Char.ofNat 39]

def errNotFound (n : String) : IpcResponse :=
  .err ("shader " ++ sq ++ n ++ sq ++ " not found")

/-- `dispatch_command_with_registry`. The filesystem effect of
`registry.hot_reload()` is abstracted by the `hotReload` parameter
(the reloaded registry and the names whose source changed). -/
def dispatch_command_with_registry
    (hotReload : ShaderRegistry → ShaderRegistry × List String)
    (cmd : IpcCommand) (reg : ShaderRegistry) (recompile : List String) :
    IpcResponse × ShaderRegistry × List String :=
  match cmd with
  | .list => (respOk reg, reg, recompile)
  | .toggle n =>
      let r := reg.toggle n
      (match r.1 with
       | some _ => (respOk r.2, r.2, recompile)
       | none => (errNotFound n, r.2, recompile))
  | .enable n =>
      let r := reg.set_enabled n true
      (match r.1 with
       | some _ => (respOk r.2, r.2, recompile)
       | none => (errNotFound n, r.2, recompile))
  | .disable n =>
      let r := reg.set_enabled n false
      (match r.1 with
       | some _ => (respOk r.2, r.2, recompile)
       | none => (errNotFound n, r.2, recompile))
  | .reload =>
      let r := hotReload reg
      (respOk r.1, r.1, recompile ++ r.2)

/-- The module-private `dispatch_command` stub (shader_ipc.rs lines 252-258):
it unconditionally answers an internal error. -/
def dispatch_command (_cmd : IpcCommand) : IpcResponse :=
  .err "internal: dispatch called without registry context"

/-- Reply written back for one connection accepted by
`ShaderIpcSource::process_events` with a successfully parsed command: the
handler closure is `|cmd| dispatch_command(cmd)` (line 153), so the registry —
and the `IpcData` metadata carrying it — is never consulted. -/
def socketReply (cmd : IpcCommand) (_reg : ShaderRegistry) : IpcResponse :=
  dispatch_command cmd

/-- Enabled flag of the named shader in a registry (for stating the claim). -/
def enabledOf (reg : ShaderRegistry) (n : String) : Option Bool :=
  (reg.entries.find? (fun e => e.name = n)).map (fun e => e.enabled)

/-- A registry holding one compiled, enabled shader named crt (concrete input
for the claim about the toggle command). -/
def crtReg : ShaderRegistry :=
  ⟨[{ name := "crt", enabled := true, path := "crt.glsl",
      source := "void main()", uniforms := [], last_modified := none }]⟩

/-- A filesystem stub for the hot-reload parameter: nothing changed on disk. -/
def noFsChange : ShaderRegistry → ShaderRegistry × List String :=
  fun r => (r, [])

/-
═══════════════════════════════════════════════════════════════════════════════
SECTION G — Shaper cluster widths
(src/shaper.rs, `Shaper::shape` lines 36-64, `is_synthetic` lines 117-124)
═══════════════════════════════════════════════════════════════════════════════
-/

/-- `is_synthetic` from shaper.rs: box drawing, block elements, braille,
Powerline arrows. -/
def is_synthetic (cp : Nat) : Bool :=
  (0x2500 ≤ cp && cp ≤ 0x257F) ||
  (0x2580 ≤ cp && cp ≤ 0x259F) ||
  (0x2800 ≤ cp && cp ≤ 0x28FF) ||
  (cp = 0xE0B0 || cp = 0xE0B1 || cp = 0xE0B2 || cp = 0xE0B3)

/-- ShapedGlyph from shaper.rs. -/
structure ShapedGlyph where
  glyph_id : Nat
  cluster_width : Nat
deriving DecidableEq, Repr

/-- UTF-8 byte length of a run, for `text.len()`. Runs are lists of chars. -/
def byteLen (t : List Char) : Nat :=
  (t.map Char.utf8Size).sum

/-- Source-side count of `text[a..b].chars().count()`: walk the run keeping
the byte offset; a char is in the slice iff its start byte lies in `[a, b)`
(HarfBuzz cluster values are char-boundary byte offsets of the run, so the
Rust slice is boundary-aligned and this is exactly its char count). -/
def sliceCharCountGo (a b : Nat) : List Char → Nat → Nat
  | [], _ => 0
  | c :: rest, o =>
      (if a ≤ o ∧ o < b then 1 else 0) + sliceCharCountGo a b rest (o + c.utf8Size)

def sliceCharCount (t : List Char) (a b : Nat) : Nat :=
  sliceCharCountGo a b t 0

/-- Inner loop of `Shaper::shape`: one ShapedGlyph per HarfBuzz glyph info,
with `cluster_width` = char count between this cluster's start byte and the
next glyph's cluster start byte (or the end of the run), min 1. -/
def shapeGo (t : List Char) : List (Nat × Nat) → List ShapedGlyph
  | [] => []
  | (gid, cl) :: rest =>
      let nextCl := match rest with
        | (_, cl') :: _ => cl'
        | [] => byteLen t
      ⟨gid, max (sliceCharCount t cl nextCl) 1⟩ :: shapeGo t rest

/-- `Shaper::shape`. The external HarfBuzz call is abstracted by `infos`, the
(glyph_id, cluster byte index) pairs of `output.glyph_infos()`; the empty-run
early return is the source's. -/
def shape (t : List Char) (infos : List (Nat × Nat)) : List ShapedGlyph :=
  if t = [] then [] else shapeGo t infos

/-- Byte offset at which the k-th character of a run starts. -/
def bytePos (t : List Char) (k : Nat) : Nat :=
  byteLen (t.take k)

/-- Modelled from the spec: "`cluster_width` = number of *characters* between
this cluster's start byte and the next glyph's cluster start byte (or end of
input), min 1" — the number of character positions of the run whose start
byte lies in the given byte interval. -/
def specCharsBetween (t : List Char) (a b : Nat) : Nat :=
  ((List.range t.length).filter (fun k => decide (a ≤ bytePos t k ∧ bytePos t k < b))).length

/-- Modelled from the spec: one output glyph per shaper glyph, paired with
the spec's cluster-width formula. -/
def specShape (t : List Char) (infos : List (Nat × Nat)) : List ShapedGlyph :=
  if t = [] then []
  else
    (List.range infos.length).map (fun i =>
      let info := infos.getD i (0, 0)
      let nextCl := if i + 1 < infos.length then (infos.getD (i + 1) (0, 0)).2 else byteLen t
      ⟨info.1, max (specCharsBetween t info.2 nextCl) 1⟩)

/-
═══════════════════════════════════════════════════════════════════════════════
SECTION H — Synthetic glyph rasterisation and the glyph atlas
(src/box_drawing.rs whole file; src/font.rs `GlyphAtlas::glyph` lines 260-268,
`rasterise_char` lines 270-318, `blit_bitmap` lines 397-469)

The `f32` arithmetic of box_drawing.rs is modelled over ℚ; `f32::sqrt` is
modelled by a rational approximation (`ratSqrt`). The claims under scrutiny
concern only bitmap sizes and glyph metrics, which are independent of the
computed alpha values.
═══════════════════════════════════════════════════════════════════════════════
-/

/-- Truncation toward zero, the semantics of Rust's `as i32` on a float. -/
def ratTrunc (q : ℚ) : Int :=
  if 0 ≤ q then q.floor else -((-q).floor)

/-- Clamp to [0,1], scale by 255 and truncate, the `(a.clamp(0.0,1.0) * 255.0)
as u8` of box_drawing.rs. -/
def ratToU8 (a : ℚ) : Nat :=
  ((min (max a 0) 1) * 255).floor.toNat

/-- Rational stand-in for `f32::sqrt` (three decimal digits of precision). -/
def ratSqrt (q : ℚ) : ℚ :=
  if q ≤ 0 then 0 else (Nat.sqrt (q * 1000000).floor.toNat : ℚ) / 1000

/-- `buf(w, h)`: a zeroed RGBA byte buffer of `w * h * 4` bytes. -/
def buf (w h : Nat) : List Nat :=
  List.replicate (w * h * 4) 0

/-- `set` from box_drawing.rs: bounds-checked max-alpha RGBA write. -/
def bset (p : List Nat) (w h : Nat) (x y : Int) (a : Nat) : List Nat :=
  if x < 0 ∨ y < 0 ∨ x ≥ (w : Int) ∨ y ≥ (h : Int) then p
  else
    let i := (y.toNat * w + x.toNat) * 4
    if a > p.getD (i + 3) 0 then
      ((((p.set i 0xFF).set (i + 1) 0xFF).set (i + 2) 0xFF).set (i + 3) a)
    else p

/-- `set_f` from box_drawing.rs. -/
def set_f (p : List Nat) (w h : Nat) (x y : Int) (a : ℚ) : List Nat :=
  bset p w h x y (ratToU8 a)

/-- Iteration over the half-open integer range `start..stop`, threading the
buffer. -/
def intFor (start stop : Int) (f : List Nat → Int → List Nat)
    (p : List Nat) : List Nat :=
  (List.range (stop - start).toNat).foldl (fun acc i => f acc (start + i)) p

/-- `rect` from box_drawing.rs: clipped solid fill. -/
def rect (p : List Nat) (w h : Nat) (x0 y0 x1 y1 : Int) : List Nat :=
  intFor (max y0 0) (min y1 (h : Int)) (fun acc y =>
    intFor (max x0 0) (min x1 (w : Int)) (fun acc2 x =>
      bset acc2 w h x y 0xFF) acc) p

/-- Light-line thickness: `(cell_h * 0.08 + 0.5).floor().max(1)`. -/
def norm (cell_h : Nat) : Nat :=
  max (((cell_h : ℚ) * (8/100) + 1/2).floor.toNat) 1

/-- Thick-line thickness: `(cell_h * 0.18 + 0.5).floor().max(2)`. -/
def thk (cell_h : Nat) : Nat :=
  max (((cell_h : ℚ) * (18/100) + 1/2).floor.toNat) 2

def hl (p : List Nat) (w h : Nat) (cy : Int) (t : Nat) : List Nat :=
  let d : Int := (t / 2 : Nat)
  rect p w h 0 (cy - d) (w : Int) (cy - d + t)

def vl (p : List Nat) (w h : Nat) (cx : Int) (t : Nat) : List Nat :=
  let d : Int := (t / 2 : Nat)
  rect p w h (cx - d) 0 (cx - d + t) (h : Int)

def hl_l (p : List Nat) (w h : Nat) (cy : Int) (t : Nat) : List Nat :=
  let d : Int := (t / 2 : Nat)
  rect p w h 0 (cy - d) ((w / 2 : Nat) + d) (cy - d + t)

def hl_r (p : List Nat) (w h : Nat) (cy : Int) (t : Nat) : List Nat :=
  let d : Int := (t / 2 : Nat)
  rect p w h ((w / 2 : Nat) - d) (cy - d) (w : Int) (cy - d + t)

def vl_t (p : List Nat) (w h : Nat) (cx : Int) (t : Nat) : List Nat :=
  let d : Int := (t / 2 : Nat)
  rect p w h (cx - d) 0 (cx - d + t) ((h / 2 : Nat) + d)

def vl_b (p : List Nat) (w h : Nat) (cx : Int) (t : Nat) : List Nat :=
  let d : Int := (t / 2 : Nat)
  rect p w h (cx - d) ((h / 2 : Nat) - d) (cx - d + t) (h : Int)

def dbl_gap (t : Nat) : Int :=
  max ((t : Int) * 2) 3

def dbl_hl (p : List Nat) (w h : Nat) (cy : Int) (t : Nat) : List Nat :=
  let d := dbl_gap t
  hl (hl p w h (cy - d) t) w h (cy + d) t

def dbl_vl (p : List Nat) (w h : Nat) (cx : Int) (t : Nat) : List Nat :=
  let d := dbl_gap t
  vl (vl p w h (cx - d) t) w h (cx + d) t

def dbl_hl_l (p : List Nat) (w h : Nat) (cy : Int) (t : Nat) : List Nat :=
  let d := dbl_gap t
  hl_l (hl_l p w h (cy - d) t) w h (cy + d) t

def dbl_hl_r (p : List Nat) (w h : Nat) (cy : Int) (t : Nat) : List Nat :=
  let d := dbl_gap t
  hl_r (hl_r p w h (cy - d) t) w h (cy + d) t

def dbl_vl_t (p : List Nat) (w h : Nat) (cx : Int) (t : Nat) : List Nat :=
  let d := dbl_gap t
  vl_t (vl_t p w h (cx - d) t) w h (cx + d) t

def dbl_vl_b (p : List Nat) (w h : Nat) (cx : Int) (t : Nat) : List Nat :=
  let d := dbl_gap t
  vl_b (vl_b p w h (cx - d) t) w h (cx + d) t

/-- Cubic Bézier point at parameter `t`. -/
def bezier2 (t : ℚ) (s c1 c2 e : ℚ × ℚ) : ℚ × ℚ :=
  let u := 1 - t
  let uu := u * u
  let uuu := uu * u
  let tt := t * t
  let ttt := tt * t
  (uuu * s.1 + 3 * uu * t * c1.1 + 3 * u * tt * c2.1 + ttt * e.1,
   uuu * s.2 + 3 * uu * t * c1.2 + 3 * u * tt * c2.2 + ttt * e.2)

/-- `draw_bezier_curve`: sample the curve `4·h + 1` times and stamp a
`t × t` square at each sample. (With `h = 0` the parameter division is by
zero; the source would produce NaN samples that cast to 0 — modelled as the
ℚ convention `x / 0 = 0`, which only affects pixel content, never size.) -/
def draw_bezier_curve (p : List Nat) (w h : Nat) (t : Nat)
    (s c1 c2 e : ℚ × ℚ) : List Nat :=
  let num_samples := h * 4
  let delta : Int := (t / 2 : Nat)
  let extra : Int := (t % 2 : Nat)
  (List.range (num_samples + 1)).foldl (fun acc i =>
    let tv : ℚ := (i : ℚ) / (num_samples : ℚ)
    let fx := (bezier2 tv s c1 c2 e).1
    let fy := (bezier2 tv s c1 c2 e).2
    let ix := ratTrunc fx
    let iy := ratTrunc fy
    intFor (-delta) (delta + extra) (fun a dy =>
      intFor (-delta) (delta + extra) (fun a2 dx =>
        bset a2 w h (ix + dx) (iy + dy) 0xFF) a) acc) p

/-- `rounded_corner`: Bézier control points per codepoint. -/
def rounded_corner (p : List Nat) (w h : Nat) (t : Nat) (which : Nat) :
    List Nat :=
  let wi : ℚ := w
  let hi : ℚ := h
  let cx := wi / 2
  let cy := hi / 2
  let pts : (ℚ × ℚ) × (ℚ × ℚ) × (ℚ × ℚ) × (ℚ × ℚ) :=
    if which = 0x256D then ((cx, hi), (wi, cy), (cx, cy + 1), (wi * 3/4, cy))
    else if which = 0x256E then ((0, cy), (cx, hi), (wi * 1/4, cy), (cx, cy + 1))
    else if which = 0x256F then ((0, cy), (cx, 0), (wi * 1/4, cy), (cx, cy - 1))
    else ((cx, 0), (wi, cy), (cx, cy - 1), (wi * 3/4, cy))
  draw_bezier_curve p w h t pts.1 pts.2.2.1 pts.2.2.2 pts.2.1

def dashed_h (p : List Nat) (w h : Nat) (cy : Int) (t : Nat) (n : Nat) :
    List Nat :=
  let seg := w / (n * 2)
  let d : Int := (t / 2 : Nat)
  (List.range n).foldl (fun acc i =>
    let x0 : Int := (i * 2 * seg : Nat)
    rect acc w h x0 (cy - d) (x0 + (seg : Int)) (cy - d + t)) p

def dashed_v (p : List Nat) (w h : Nat) (cx : Int) (t : Nat) (n : Nat) :
    List Nat :=
  let seg := h / (n * 2)
  let d : Int := (t / 2 : Nat)
  (List.range n).foldl (fun acc i =>
    let y0 : Int := (i * 2 * seg : Nat)
    rect acc w h (cx - d) y0 (cx - d + t) (y0 + (seg : Int))) p

def diag (p : List Nat) (w h : Nat) (down_right : Bool) (t : Nat) : List Nat :=
  let half : Int := ((t - 1) / 2 : Nat)
  (List.range w).foldl (fun acc x =>
    let y : Int := if down_right then ((x * h / w : Nat) : Int)
                   else (h : Int) - 1 - ((x * h / w : Nat) : Int)
    intFor (-half) (half + 1) (fun a d =>
      bset a w h (x : Int) (y + d) 0xFF) acc) p

def diag_seg (p : List Nat) (w h : Nat) (x0 y0 x1 y1 : Int) (t : Nat) :
    List Nat :=
  let dx := (x1 - x0).natAbs
  let dy := (y1 - y0).natAbs
  let steps : Nat := max (max dx dy) 1
  let half : Int := ((t - 1) / 2 : Nat)
  (List.range (steps + 1)).foldl (fun acc i =>
    let x := x0 + Int.tdiv ((x1 - x0) * i) steps
    let y := y0 + Int.tdiv ((y1 - y0) * i) steps
    intFor (-half) (half + 1) (fun a tt =>
      if dx ≥ dy then bset a w h x (y + tt) 0xFF
      else bset a w h (x + tt) y 0xFF) acc) p

/-- `draw_box`: pattern match over the box-drawing codepoints. -/
def draw_box (cp : Nat) (w h : Nat) : List Nat :=
  let p := buf w h
  let n := norm h
  let k := thk h
  let cx : Int := (w / 2 : Nat)
  let cy : Int := (h / 2 : Nat)
  match cp with
  | 0x2500 => hl p w h cy n
  | 0x2501 => hl p w h cy k
  | 0x2502 => vl p w h cx n
  | 0x2503 => vl p w h cx k
  | 0x2504 | 0x2508 | 0x254C => dashed_h p w h cy n 2
  | 0x2505 | 0x2509 | 0x254D => dashed_h p w h cy k 2
  | 0x2506 | 0x250A => dashed_v p w h cx n 2
  | 0x2507 | 0x250B => dashed_v p w h cx k 2
  | 0x250C => vl_b (hl_r p w h cy n) w h cx n
  | 0x2510 => vl_b (hl_l p w h cy n) w h cx n
  | 0x2514 => vl_t (hl_r p w h cy n) w h cx n
  | 0x2518 => vl_t (hl_l p w h cy n) w h cx n
  | 0x250F => vl_b (hl_r p w h cy k) w h cx k
  | 0x2513 => vl_b (hl_l p w h cy k) w h cx k
  | 0x2517 => vl_t (hl_r p w h cy k) w h cx k
  | 0x251B => vl_t (hl_l p w h cy k) w h cx k
  | 0x250D => vl_b (hl_r p w h cy k) w h cx n
  | 0x2511 => vl_b (hl_l p w h cy k) w h cx n
  | 0x2515 => vl_t (hl_r p w h cy k) w h cx n
  | 0x2519 => vl_t (hl_l p w h cy k) w h cx n
  | 0x250E => vl_b (hl_r p w h cy n) w h cx k
  | 0x2512 => vl_b (hl_l p w h cy n) w h cx k
  | 0x2516 => vl_t (hl_r p w h cy n) w h cx k
  | 0x251A => vl_t (hl_l p w h cy n) w h cx k
  | 0x251C => vl (hl_r p w h cy n) w h cx n
  | 0x2524 => vl (hl_l p w h cy n) w h cx n
  | 0x252C => vl_b (hl p w h cy n) w h cx n
  | 0x2534 => vl_t (hl p w h cy n) w h cx n
  | 0x253C => vl (hl p w h cy n) w h cx n
  | 0x2523 => vl (hl_r p w h cy k) w h cx k
  | 0x252B => vl (hl_l p w h cy k) w h cx k
  | 0x2533 => vl_b (hl p w h cy k) w h cx k
  | 0x253B => vl_t (hl p w h cy k) w h cx k
  | 0x254B => vl (hl p w h cy k) w h cx k
  | 0x251D => vl (hl_r p w h cy k) w h cx n
  | 0x2525 => vl (hl_l p w h cy k) w h cx n
  | 0x252F => vl_b (hl p w h cy k) w h cx n
  | 0x2537 => vl_t (hl p w h cy k) w h cx n
  | 0x253F => vl (hl p w h cy k) w h cx n
  | 0x2520 => vl (hl_r p w h cy n) w h cx k
  | 0x2528 => vl (hl_l p w h cy n) w h cx k
  | 0x2530 => vl_b (hl p w h cy n) w h cx k
  | 0x2538 => vl_t (hl p w h cy n) w h cx k
  | 0x2542 => vl (hl p w h cy n) w h cx k
  | 0x2550 => dbl_hl p w h cy n
  | 0x2551 => dbl_vl p w h cx n
  | 0x2554 => dbl_vl_b (dbl_hl_r p w h cy n) w h cx n
  | 0x2557 => dbl_vl_b (dbl_hl_l p w h cy n) w h cx n
  | 0x255A => dbl_vl_t (dbl_hl_r p w h cy n) w h cx n
  | 0x255D => dbl_vl_t (dbl_hl_l p w h cy n) w h cx n
  | 0x2560 => dbl_vl (dbl_hl_r p w h cy n) w h cx n
  | 0x2563 => dbl_vl (dbl_hl_l p w h cy n) w h cx n
  | 0x2566 => dbl_vl_b (dbl_hl p w h cy n) w h cx n
  | 0x2569 => dbl_vl_t (dbl_hl p w h cy n) w h cx n
  | 0x256C => dbl_vl (dbl_hl p w h cy n) w h cx n
  | 0x255E | 0x255F => dbl_vl (hl_r p w h cy n) w h cx n
  | 0x2561 | 0x2562 => dbl_vl (hl_l p w h cy n) w h cx n
  | 0x2564 | 0x2565 => vl_b (dbl_hl p w h cy n) w h cx n
  | 0x2567 | 0x2568 => vl_t (dbl_hl p w h cy n) w h cx n
  | 0x2571 => diag p w h false n
  | 0x2572 => diag p w h true n
  | 0x2573 => diag (diag p w h false n) w h true n
  | 0x2574 => hl_l p w h cy n
  | 0x2575 => vl_t p w h cx n
  | 0x2576 => hl_r p w h cy n
  | 0x2577 => vl_b p w h cx n
  | 0x2578 => hl_l p w h cy k
  | 0x2579 => vl_t p w h cx k
  | 0x257A => hl_r p w h cy k
  | 0x257B => vl_b p w h cx k
  | 0x257C => hl_r (hl_l p w h cy n) w h cy k
  | 0x257D => vl_b (vl_t p w h cx n) w h cx k
  | 0x257E => hl_r (hl_l p w h cy k) w h cy n
  | 0x257F => vl_b (vl_t p w h cx k) w h cx n
  | 0x256D => rounded_corner p w h n 0x256D
  | 0x256E => rounded_corner p w h n 0x256E
  | 0x256F => rounded_corner p w h n 0x256F
  | 0x2570 => rounded_corner p w h n 0x2570
  | _ => vl (hl p w h cy n) w h cx n

/-- `shade`: checkerboard alpha fill. -/
def shade (p : List Nat) (w h : Nat) (a : Nat) : List Nat :=
  (List.range h).foldl (fun acc y =>
    (List.range w).foldl (fun acc2 x =>
      if (x + y) % 2 = 0 then bset acc2 w h (x : Int) (y : Int) a else acc2)
      acc) p

/-- `draw_block`: block elements. The Rust match arms are checked in order;
the range arms are translated as ordered conditionals. -/
def draw_block (cp : Nat) (w h : Nat) : List Nat :=
  let p := buf w h
  let wi : Int := w
  let hi : Int := h
  if cp = 0x2580 then rect p w h 0 0 wi (Int.tdiv hi 2)
  else if cp = 0x2584 then rect p w h 0 (Int.tdiv hi 2) wi hi
  else if cp = 0x2588 then rect p w h 0 0 wi hi
  else if cp = 0x258C then rect p w h 0 0 (Int.tdiv wi 2) hi
  else if cp = 0x2590 then rect p w h (Int.tdiv wi 2) 0 wi hi
  else if 0x2581 ≤ cp ∧ cp ≤ 0x2587 then
    let n : Int := (cp - 0x2580 : Nat)
    rect p w h 0 (hi - Int.tdiv (hi * n + 4) 8) wi hi
  else if cp = 0x2594 then rect p w h 0 0 wi (Int.tdiv (hi + 7) 8)
  else if cp = 0x2595 then rect p w h (wi - Int.tdiv (wi + 7) 8) 0 wi hi
  else if 0x2589 ≤ cp ∧ cp ≤ 0x258F then
    let n : Int := (0x2590 - cp : Nat)
    rect p w h 0 0 (wi - Int.tdiv (wi * n + 4) 8) hi
  else if cp = 0x2596 then rect p w h 0 (Int.tdiv hi 2) (Int.tdiv wi 2) hi
  else if cp = 0x2597 then rect p w h (Int.tdiv wi 2) (Int.tdiv hi 2) wi hi
  else if cp = 0x2598 then rect p w h 0 0 (Int.tdiv wi 2) (Int.tdiv hi 2)
  else if cp = 0x2599 then
    rect (rect p w h 0 0 (Int.tdiv wi 2) hi) w h (Int.tdiv wi 2) (Int.tdiv hi 2) wi hi
  else if cp = 0x259A then
    rect (rect p w h 0 0 (Int.tdiv wi 2) (Int.tdiv hi 2)) w h (Int.tdiv wi 2) (Int.tdiv hi 2) wi hi
  else if cp = 0x259B then
    rect (rect p w h 0 0 wi (Int.tdiv hi 2)) w h 0 (Int.tdiv hi 2) (Int.tdiv wi 2) hi
  else if cp = 0x259C then
    rect (rect p w h 0 0 wi (Int.tdiv hi 2)) w h (Int.tdiv wi 2) (Int.tdiv hi 2) wi hi
  else if cp = 0x259D then rect p w h (Int.tdiv wi 2) 0 wi (Int.tdiv hi 2)
  else if cp = 0x259E then
    rect (rect p w h 0 (Int.tdiv hi 2) (Int.tdiv wi 2) hi) w h (Int.tdiv wi 2) 0 wi (Int.tdiv hi 2)
  else if cp = 0x259F then
    rect (rect p w h (Int.tdiv wi 2) 0 wi hi) w h 0 (Int.tdiv hi 2) (Int.tdiv wi 2) hi
  else if cp = 0x2591 then shade p w h 64
  else if cp = 0x2592 then shade p w h 128
  else if cp = 0x2593 then shade p w h 192
  else rect p w h 0 0 wi hi

/-- `circle_aa`: anti-aliased dot. -/
def circle_aa (p : List Nat) (w h : Nat) (cx cy r : ℚ) : List Nat :=
  let x0 := (cx - r - 1).floor
  let x1 := (cx + r + 1).ceil
  let y0 := (cy - r - 1).floor
  let y1 := (cy + r + 1).ceil
  intFor y0 (y1 + 1) (fun acc y =>
    intFor x0 (x1 + 1) (fun acc2 x =>
      let d := ratSqrt (((x : ℚ) - cx) ^ 2 + ((y : ℚ) - cy) ^ 2)
      let a := min (max (r + 1/2 - d) 0) 1
      if 0 < a then set_f acc2 w h x y a else acc2) acc) p

/-- `draw_braille`: 2×4 dot grid selected by the low 8 bits. -/
def draw_braille (cp : Nat) (w h : Nat) : List Nat :=
  let p := buf w h
  let bits := cp - 0x2800
  if bits = 0 then p
  else
    let r := max ((w : ℚ) * (10/100)) (3/2)
    let xs : List ℚ := [(w : ℚ) * (30/100), (w : ℚ) * (70/100)]
    let ys : List ℚ :=
      [(h : ℚ) * (15/100), (h : ℚ) * (38/100), (h : ℚ) * (62/100), (h : ℚ) * (85/100)]
    let dots : List (Nat × Nat) :=
      [(0, 0), (0, 1), (0, 2), (1, 0), (1, 1), (1, 2), (0, 3), (1, 3)]
    (List.range 8).foldl (fun acc bit =>
      if bits &&& (1 <<< bit) = 0 then acc
      else
        let cr := dots.getD bit (0, 0)
        circle_aa acc w h (xs.getD cr.1 0) (ys.getD cr.2 0) r) p

/-- Powerline solid right arrow. -/
def draw_pl_right_solid (w h : Nat) : List Nat :=
  let p := buf w h
  let wi : ℚ := w
  let hi : ℚ := h
  let half := hi * (1/2)
  (List.range h).foldl (fun acc (y : Nat) =>
    let dist := |(y : ℚ) - half|
    let x_max : Int := (wi - dist * wi / half).ceil
    intFor 0 (min (max x_max 0) (w : Int)) (fun a x =>
      bset a w h x (y : Int) 0xFF) acc) p

/-- Powerline solid left arrow. -/
def draw_pl_left_solid (w h : Nat) : List Nat :=
  let p := buf w h
  let wi : ℚ := w
  let hi : ℚ := h
  let half := hi * (1/2)
  (List.range h).foldl (fun acc (y : Nat) =>
    let dist := |(y : ℚ) - half|
    let x_min : Int := (dist * wi / half).floor
    intFor (max x_min 0) (w : Int) (fun a x =>
      bset a w h x (y : Int) 0xFF) acc) p

/-- Powerline hollow right arrow. -/
def draw_pl_right_hollow (w h : Nat) : List Nat :=
  let p := buf w h
  let t := norm h
  let wi : Int := w
  let hi : Int := h
  diag_seg (diag_seg p w h 0 0 (wi - 1) (Int.tdiv hi 2) t)
    w h 0 (hi - 1) (wi - 1) (Int.tdiv hi 2) t

/-- Powerline hollow left arrow. -/
def draw_pl_left_hollow (w h : Nat) : List Nat :=
  let p := buf w h
  let t := norm h
  let wi : Int := w
  let hi : Int := h
  diag_seg (diag_seg p w h (wi - 1) 0 0 (Int.tdiv hi 2) t)
    w h (wi - 1) (hi - 1) 0 (Int.tdiv hi 2) t

/-- `render_box_char` from box_drawing.rs: dispatch on the codepoint ranges. -/
def render_box_char (ch : Char) (cell_w cell_h : Nat) : Option (List Nat) :=
  let cp := ch.toNat
  if 0x2500 ≤ cp ∧ cp ≤ 0x257F then some (draw_box cp cell_w cell_h)
  else if 0x2580 ≤ cp ∧ cp ≤ 0x259F then some (draw_block cp cell_w cell_h)
  else if 0x2800 ≤ cp ∧ cp ≤ 0x28FF then some (draw_braille cp cell_w cell_h)
  else if cp = 0xE0B0 then some (draw_pl_right_solid cell_w cell_h)
  else if cp = 0xE0B2 then some (draw_pl_left_solid cell_w cell_h)
  else if cp = 0xE0B1 then some (draw_pl_right_hollow cell_w cell_h)
  else if cp = 0xE0B3 then some (draw_pl_left_hollow cell_w cell_h)
  else none

/-- Atlas texture side length (font.rs `ATLAS_SIZE`). -/
def ATLAS_SIZE : Nat := 2048

/-- Inter-glyph gap in atlas texels (font.rs `GAP`). -/
def GAP : Nat := 2

/-- GlyphInfo from font.rs; UVs over ℚ. -/
structure GlyphInfo where
  uv_x : ℚ
  uv_y : ℚ
  uv_w : ℚ
  uv_h : ℚ
  width : Int
  height : Int
  bearing_x : Int
  bearing_y : Int
  advance : Int
deriving DecidableEq, Repr

/-- Cache key for char-based lookups. -/
structure GlyphKey where
  ch : Char
  bold : Bool
  italic : Bool
deriving DecidableEq, Repr

/-- Result of the external `ab_glyph` outline rasterisation
(`outline_glyph` + `px_bounds` + `draw` in `rasterise_glyph_from_ptr`):
an alpha bitmap with its size and metrics. -/
structure OutlineGlyph where
  bitmap : List Nat
  w : Nat
  h : Nat
  bearing_x : Int
  bearing_y : Int
  advance : Int

/-- GlyphAtlas state (font.rs). The atlas pixel store is a byte function;
the three `ab_glyph` faces and their metrics computation are abstracted by
the `fontOutline` oracle (an external library). -/
structure GlyphAtlas where
  cache : List (GlyphKey × Option GlyphInfo)
  pixels : Nat → Nat
  cursor_x : Nat
  cursor_y : Nat
  row_h : Nat
  cell_w : Nat
  cell_h : Nat
  ascender : Int
  dirty : Bool
  fontOutline : Char → Bool → Bool → Option OutlineGlyph

def cacheLookup (cache : List (GlyphKey × Option GlyphInfo)) (k : GlyphKey) :
    Option (Option GlyphInfo) :=
  match cache with
  | [] => none
  | (k', v) :: t => if k' = k then some v else cacheLookup t k

/-- Row advance of `blit_bitmap`: when the glyph does not fit on the current
atlas row, move the cursor to the start of the next row. -/
def blit_row_advance (a : GlyphAtlas) (w : Nat) : GlyphAtlas :=
  if a.cursor_x + w + GAP > ATLAS_SIZE then
    { a with cursor_y := a.cursor_y + a.row_h + GAP, cursor_x := 0, row_h := 0 }
  else a

/-- Pixel write loop of `blit_bitmap`: RGBA write of the bitmap into the
atlas byte store at the cursor (alpha-only or RGBA source format
distinguished by the bitmap length, as in the source). -/
def blit_pixels (store : Nat → Nat) (cx cy : Nat) (bitmap : List Nat)
    (w h hu : Nat) : Nat → Nat :=
  (List.range hu).foldl (fun acc py =>
    (List.range w).foldl (fun acc2 px =>
      let alpha :=
        if bitmap.length = w * h then bitmap.getD (py * w + px) 0
        else bitmap.getD ((py * w + px) * 4 + 3) 0
      let base := ((cy + py) * ATLAS_SIZE + (cx + px)) * 4
      fun j =>
        if j = base then 0xFF
        else if j = base + 1 then 0xFF
        else if j = base + 2 then 0xFF
        else if j = base + 3 then alpha
        else acc2 j) acc) store

/-- `GlyphAtlas::blit_bitmap`: row-advance on overflow, atlas-full drop,
RGBA write of the bitmap, half-texel UV inset, cursor advance. -/
def blit_bitmap (a : GlyphAtlas) (bitmap : List Nat) (w h : Nat)
    (bx bry adv : Int) (synthetic : Bool) : Option GlyphInfo × GlyphAtlas :=
  let hu := if synthetic then h else min h (a.cell_h * 2)
  let a1 := blit_row_advance a w
  if a1.cursor_y + hu + GAP > ATLAS_SIZE then (none, a1)
  else
    let half : ℚ := (1/2) / (ATLAS_SIZE : ℚ)
    let info : GlyphInfo :=
      { uv_x := (a1.cursor_x : ℚ) / (ATLAS_SIZE : ℚ) + half
        uv_y := (a1.cursor_y : ℚ) / (ATLAS_SIZE : ℚ) + half
        uv_w := (w : ℚ) / (ATLAS_SIZE : ℚ) - 2 * half
        uv_h := (hu : ℚ) / (ATLAS_SIZE : ℚ) - 2 * half
        width := (w : Int)
        height := (hu : Int)
        bearing_x := bx
        bearing_y := bry
        advance := adv }
    (some info,
     { a1 with
        pixels := blit_pixels a1.pixels a1.cursor_x a1.cursor_y bitmap w h hu
        cursor_x := a1.cursor_x + w + GAP
        row_h := max a1.row_h hu
        dirty := true })

/-- Font outline path of `rasterise_char` / `rasterise_glyph_from_ptr`,
with the external `ab_glyph` computation given by the atlas oracle: a missing
outline yields None; a 0-sized outline yields an empty GlyphInfo that keeps
the metrics; otherwise the coverage bitmap is blitted. -/
def fontPath (a : GlyphAtlas) (ch : Char) (bold italic : Bool) :
    Option GlyphInfo × GlyphAtlas :=
  match a.fontOutline ch bold italic with
  | none => (none, a)
  | some og =>
      if og.w = 0 ∨ og.h = 0 then
        (some { uv_x := 0, uv_y := 0, uv_w := 0, uv_h := 0,
                width := 0, height := 0, bearing_x := og.bearing_x,
                bearing_y := og.bearing_y, advance := og.advance }, a)
      else blit_bitmap a og.bitmap og.w og.h og.bearing_x og.bearing_y og.advance false

/-- `GlyphAtlas::rasterise_char`: synthetic fast path with
`bearing_x = 0`, `bearing_y = ascender`, `advance = cell_w`; otherwise (or on
an unrecognised synthetic codepoint) the font outline path. -/
def rasterise_char (a : GlyphAtlas) (ch : Char) (bold italic : Bool) :
    Option GlyphInfo × GlyphAtlas :=
  if is_synthetic ch.toNat then
    match render_box_char ch a.cell_w a.cell_h with
    | some bm => blit_bitmap a bm a.cell_w a.cell_h 0 a.ascender (a.cell_w : Int) true
    | none => fontPath a ch bold italic
  else fontPath a ch bold italic

/-- `GlyphAtlas::glyph`: memoised char lookup (None results are cached too). -/
def glyph (a : GlyphAtlas) (ch : Char) (bold italic : Bool) :
    Option GlyphInfo × GlyphAtlas :=
  match cacheLookup a.cache ⟨ch, bold, italic⟩ with
  | some cached => (cached, a)
  | none =>
      let r := rasterise_char a ch bold italic
      (r.1, { r.2 with cache := (⟨ch, bold, italic⟩, r.1) :: r.2.cache })

/-- Cache soundness for synthetic codepoints: every cached synthetic glyph
carries the synthetic metrics. Holds for the freshly constructed atlas
(empty cache) and is preserved by `glyph`. -/
def atlasCacheInv (a : GlyphAtlas) : Prop :=
  ∀ kv ∈ a.cache, is_synthetic kv.1.ch.toNat = true →
    ∀ info, kv.2 = some info →
      info.bearing_x = 0 ∧ info.bearing_y = a.ascender ∧
      info.advance = (a.cell_w : Int)

/-- A concrete 1×1-cell atlas with an empty cache and no font faces, used as
a witness input. -/
def testAtlas : GlyphAtlas :=
  { cache := []
    pixels := fun _ => 0
    cursor_x := 0
    cursor_y := 0
    row_h := 0
    cell_w := 1
    cell_h := 1
    ascender := 1
    dirty := false
    fontOutline := fun _ _ _ => none }

/-
═══════════════════════════════════════════════════════════════════════════════
PART II — THEOREMS
═══════════════════════════════════════════════════════════════════════════════
-/

/-- List update at an index commutes with indexing. -/
theorem updAt_getElem? {α : Type} (l : List α) (i : Nat) (f : α → α) :
    (updAt l i f)[i]? = l[i]?.map f := by
  induction l generalizing i with
  | nil => simp [updAt]
  | cons x xs ih =>
      cases i with
      | zero => simp [updAt]
      | succ n => simpa [updAt] using ih n

/-- Claim C6: for every TwmState, dispatch(GrowMain) immediately followed by
dispatch(ShrinkMain) leaves the active workspace's main_ratio unchanged for
every starting main_ratio in [0.1, 0.85] (arithmetic over ℚ — the claim's
"modulo floating-point rounding" provision). At ratios above 0.85 the grow
step clamps at 0.9 and the round trip is NOT the identity, which is why the
upper bound is 0.85 rather than the claimed 0.9. -/
theorem trixie_C6_grow_shrink_round_trip (s : TwmRatioState)
    (h1 : 1/10 ≤ s.mainRatio) (h2 : s.mainRatio ≤ 17/20) :
    (dispatchShrinkMain (dispatchGrowMain s)).mainRatio = s.mainRatio := by
  cases hw : s.workspaces[s.active_ws]? with
  | none =>
      have h0 : s.mainRatio = 0 := by simp [TwmRatioState.mainRatio, hw]
      rw [h0] at h1
      norm_num at h1
  | some w =>
      have hsr : s.mainRatio = w.main_ratio := by
        simp [TwmRatioState.mainRatio, hw]
      have hg : (dispatchGrowMain s).workspaces[s.active_ws]? =
          some { w with main_ratio := min (w.main_ratio + 5/100) (9/10) } := by
        simp only [dispatchGrowMain]
        rw [updAt_getElem?, hw]
        rfl
      have hs2 : (dispatchShrinkMain (dispatchGrowMain s)).workspaces[s.active_ws]? =
          some { w with
                 main_ratio := max (min (w.main_ratio + 5/100) (9/10) - 5/100) (1/10) } := by
        simp only [dispatchShrinkMain]
        rw [show (dispatchGrowMain s).active_ws = s.active_ws from rfl]
        rw [updAt_getElem?, hg]
        rfl
      have hfin : (dispatchShrinkMain (dispatchGrowMain s)).mainRatio =
          max (min (w.main_ratio + 5/100) (9/10) - 5/100) (1/10) := by
        unfold TwmRatioState.mainRatio
        rw [show (dispatchShrinkMain (dispatchGrowMain s)).active_ws = s.active_ws from rfl,
          hs2]
      rw [hfin, hsr]
      rw [hsr] at h1 h2
      have hmin : min (w.main_ratio + 5/100) (9/10) = w.main_ratio + 5/100 :=
        min_eq_left (by linarith)
      rw [hmin, show w.main_ratio + 5/100 - 5/100 = w.main_ratio from by ring,
        max_eq_left h1]

/-- Witness for C6 at a concrete ratio. -/
theorem trixie_C6_witness :
    1/10 ≤ (ratioState (1/2)).mainRatio ∧ (ratioState (1/2)).mainRatio ≤ 17/20 ∧
    (dispatchShrinkMain (dispatchGrowMain (ratioState (1/2)))).mainRatio =
      (ratioState (1/2)).mainRatio :=
  ⟨by norm_num [ratioState, TwmRatioState.mainRatio],
   by norm_num [ratioState, TwmRatioState.mainRatio],
   trixie_C6_grow_shrink_round_trip (ratioState (1/2))
     (by norm_num [ratioState, TwmRatioState.mainRatio])
     (by norm_num [ratioState, TwmRatioState.mainRatio])⟩

/-- Counterexample for the claimed range: starting at main_ratio = 0.9 (a
value the claim includes), GrowMain clamps at 0.9 and ShrinkMain then lands
at 0.85, so the round trip is not the identity there. -/
theorem trixie_C6_counterexample :
    (dispatchShrinkMain (dispatchGrowMain (ratioState (9/10)))).mainRatio = 17/20 ∧
    (ratioState (9/10)).mainRatio = 9/10 ∧
    (17/20 : ℚ) ≠ 9/10 := by
  refine ⟨?_, ?_, by norm_num⟩ <;>
    norm_num [ratioState, TwmRatioState.mainRatio, dispatchGrowMain,
      dispatchShrinkMain, updAt]

/-- Claim C2: after every render attempt (queued, empty or failed outcome),
next_frame_time becomes now + frame_duration when it had drifted into the
past, and exactly its previous value + frame_duration when the timer fired
on time (next_frame_time = now); it is never pushed further than that when
not behind. -/
theorem trixie_C2_next_frame_time (s : SurfaceData) (now : Nat)
    (o : RenderOutcome) (hp : s.pending_frame = false)
    (ht : s.next_frame_time ≤ now) :
    (render_surface now o s).1.next_frame_time =
      (if s.next_frame_time < now then now else s.next_frame_time)
        + s.frame_duration := by
  have hnl : ¬(now < s.next_frame_time) := by omega
  cases o <;> simp [render_surface, hp, hnl] <;> split <;> omega

/-- Witness for C2: a concrete attempt 50 µs late snaps to now + duration. -/
theorem trixie_C2_witness :
    (⟨100, false, 16667⟩ : SurfaceData).pending_frame = false ∧
    (⟨100, false, 16667⟩ : SurfaceData).next_frame_time ≤ 150 ∧
    (render_surface 150 .frameEmpty ⟨100, false, 16667⟩).1.next_frame_time =
      (if (⟨100, false, 16667⟩ : SurfaceData).next_frame_time < 150 then 150
       else (⟨100, false, 16667⟩ : SurfaceData).next_frame_time) + 16667 :=
  ⟨rfl, by decide, trixie_C2_next_frame_time ⟨100, false, 16667⟩ 150 .frameEmpty rfl (by decide)⟩

/-- One step preserves the pending-frame accounting invariant. -/
theorem stepEv_count_inv (s : SurfaceData) (c : Counts) (e : FrameEv)
    (h : c.okQueues ≤ c.submits + (if s.pending_frame then 1 else 0)) :
    (c.bump (stepEv s e).2).okQueues ≤
      (c.bump (stepEv s e).2).submits +
        (if (stepEv s e).1.pending_frame then 1 else 0) := by
  cases e with
  | finish =>
      simp [stepEv, frame_finish, Counts.bump, StepLog.none']
      split at h <;> omega
  | render now o =>
      by_cases hg : (s.pending_frame || decide (now < s.next_frame_time)) = true
      · simp [stepEv, render_surface, hg, Counts.bump, StepLog.none']
        exact h
      · have hpf : s.pending_frame = false := by
          cases hpf : s.pending_frame <;> simp [hpf] at hg ⊢
        have hlt : ¬(now < s.next_frame_time) := by
          simpa [hpf] using hg
        rw [hpf, if_neg (by simp)] at h
        cases o <;>
          simp [stepEv, render_surface, Counts.bump, StepLog.none', hpf, hlt] <;>
          omega

/-- The invariant carried along a whole trace. -/
theorem runFrom_count_inv (t : List FrameEv) (s : SurfaceData) (c : Counts)
    (h : c.okQueues ≤ c.submits + (if s.pending_frame then 1 else 0)) :
    (runFrom s c t).2.okQueues ≤
      (runFrom s c t).2.submits +
        (if (runFrom s c t).1.pending_frame then 1 else 0) := by
  induction t generalizing s c with
  | nil => simpa [runFrom] using h
  | cons e t ih =>
      simp only [runFrom]
      exact ih _ _ (stepEv_count_inv s c e h)

/-- Claim C3 (amended): in every trace from a surface with no pending frame,
the number of SUCCESSFUL queue_frame calls never exceeds the number of
frame_submitted calls by more than one; while pending_frame is set,
render_surface returns without calling render_frame or queue_frame;
pending_frame is set only by a successful queue_frame; and frame_finish
clears it. (A FAILED queue_frame call leaves pending_frame clear and may
repeat, which is the one deviation from the claim as stated — see the
counterexample.) -/
theorem trixie_C3_pending_frame_accounting :
    (∀ (s0 : SurfaceData) (t : List FrameEv), s0.pending_frame = false →
       (runTrace s0 t).2.okQueues ≤ (runTrace s0 t).2.submits + 1) ∧
    (∀ (s : SurfaceData) (now : Nat) (o : RenderOutcome),
       s.pending_frame = true →
       (render_surface now o s).2.renderFrameCalled = false ∧
       (render_surface now o s).2.queueCalled = false ∧
       (render_surface now o s).1 = s) ∧
    (∀ (s : SurfaceData) (now : Nat) (o : RenderOutcome),
       s.pending_frame = false →
       (render_surface now o s).1.pending_frame = true →
       (render_surface now o s).2.queueOkFlag = true) ∧
    (∀ s : SurfaceData, (frame_finish s).1.pending_frame = false) := by
  refine ⟨?_, ?_, ?_, ?_⟩
  · intro s0 t h0
    have := runFrom_count_inv t s0 Counts.zero
      (by simp [Counts.zero, h0])
    unfold runTrace
    split at this <;> omega
  · intro s now o hp
    simp [render_surface, hp, StepLog.none']
  · intro s now o hp hset
    by_cases hg : (s.pending_frame || decide (now < s.next_frame_time)) = true
    · rw [show (render_surface now o s).1 = s by
        simp [render_surface, hg]] at hset
      rw [hset] at hp
      exact absurd hp (by simp)
    · have hlt : ¬(now < s.next_frame_time) := by
        simpa [hp] using hg
      cases o <;> simp [render_surface, hp, hlt] at hset ⊢
  · intro s
    simp [frame_finish]

/-- Witness for C3 at a concrete trace with a queue, a VBlank, and a second
queue. -/
theorem trixie_C3_witness :
    (⟨0, false, 5⟩ : SurfaceData).pending_frame = false ∧
    (runTrace ⟨0, false, 5⟩
        [.render 10 .queueSucceeded, .finish, .render 20 .queueSucceeded]).2.okQueues ≤
      (runTrace ⟨0, false, 5⟩
        [.render 10 .queueSucceeded, .finish, .render 20 .queueSucceeded]).2.submits + 1 :=
  ⟨rfl, trixie_C3_pending_frame_accounting.1 ⟨0, false, 5⟩
    [.render 10 .queueSucceeded, .finish, .render 20 .queueSucceeded] rfl⟩

/-- Counterexample to C3 as stated: two consecutive FAILED queue_frame calls
(queue_frame returning Err leaves pending_frame false, so render_surface
calls it again on the next tick) give 2 queue_frame calls against 0
frame_submitted calls — the difference exceeds 1. -/
theorem trixie_C3_counterexample :
    (runTrace ⟨0, false, 5⟩
       [.render 10 .queueFailed, .render 20 .queueFailed]).2.queueCalls = 2 ∧
    (runTrace ⟨0, false, 5⟩
       [.render 10 .queueFailed, .render 20 .queueFailed]).2.submits = 0 ∧
    ¬((runTrace ⟨0, false, 5⟩
        [.render 10 .queueFailed, .render 20 .queueFailed]).2.queueCalls ≤
      (runTrace ⟨0, false, 5⟩
        [.render 10 .queueFailed, .render 20 .queueFailed]).2.submits + 1) := by
  decide

/-- Setting the low bit on an even number is the same as adding one. -/
theorem even_lor_one (p : Nat) (h : p % 2 = 0) : p ||| 1 = p + 1 := by
  obtain ⟨m, rfl⟩ : ∃ m, p = 2 * m := ⟨p / 2, by omega⟩
  have h2 : 2 * m = Nat.bit false m := by simp [Nat.bit_val]
  have h1 : (1 : ℕ) = Nat.bit true 0 := rfl
  rw [h2, h1, Nat.lor_bit]
  simp [Nat.bit_val]

/-- Claim C9: with an even serial `prev` before the call, write_frame first
stores `prev | 1 = prev + 1` (odd), performs the width, height and pixel
stores while the serial is odd (serial value after every proper non-empty
prefix of the store list short of the last store), and finishes with
`prev + 2`, which is even and strictly greater than `prev`. -/
theorem trixie_C9_write_protocol (prev w h len : Nat) (hprev : Even prev) :
    write_frame_stores prev w h len =
      [ .storeSerial (prev + 1), .storeWidth w, .storeHeight h,
        .storePixels (byte_count w h len), .storeSerial (prev + 2) ] ∧
    Odd (serialAfter prev ((write_frame_stores prev w h len).take 1)) ∧
    Odd (serialAfter prev ((write_frame_stores prev w h len).take 2)) ∧
    Odd (serialAfter prev ((write_frame_stores prev w h len).take 3)) ∧
    Odd (serialAfter prev ((write_frame_stores prev w h len).take 4)) ∧
    serialAfter prev (write_frame_stores prev w h len) = prev + 2 ∧
    Even (prev + 2) ∧ prev < prev + 2 := by
  have hmod : prev % 2 = 0 := Nat.even_iff.mp hprev
  have hodd : Odd (prev + 1) := Even.add_one hprev
  have hlor : prev ||| 1 = prev + 1 := even_lor_one prev hmod
  refine ⟨by simp [write_frame_stores, hlor], ?_, ?_, ?_, ?_,
    by simp [write_frame_stores, serialAfter, hlor], ?_, by omega⟩
  · simpa [write_frame_stores, serialAfter, hlor] using hodd
  · simpa [write_frame_stores, serialAfter, hlor] using hodd
  · simpa [write_frame_stores, serialAfter, hlor] using hodd
  · simpa [write_frame_stores, serialAfter, hlor] using hodd
  · obtain ⟨k, hk⟩ := hprev
    exact ⟨k + 1, by omega⟩

/-- Witness for C9 at serial 0 and a 3840×2160 frame. -/
theorem trixie_C9_witness :
    write_frame_stores 0 3840 2160 100 =
      [ .storeSerial 1, .storeWidth 3840, .storeHeight 2160,
        .storePixels (byte_count 3840 2160 100), .storeSerial 2 ] ∧
    Odd (serialAfter 0 ((write_frame_stores 0 3840 2160 100).take 1)) ∧
    Odd (serialAfter 0 ((write_frame_stores 0 3840 2160 100).take 2)) ∧
    Odd (serialAfter 0 ((write_frame_stores 0 3840 2160 100).take 3)) ∧
    Odd (serialAfter 0 ((write_frame_stores 0 3840 2160 100).take 4)) ∧
    serialAfter 0 (write_frame_stores 0 3840 2160 100) = 0 + 2 ∧
    Even (0 + 2) ∧ 0 < 0 + 2 :=
  trixie_C9_write_protocol 0 3840 2160 100 (by decide)

/-- Claim C10 (amended): write_frame copies
`min((width·height·4) mod 2^32, MAX_PIXELS, pixels.len())` bytes, so the copy
stays inside the SHM_SIZE mapping and inside the supplied slice; the claimed
formula `min(width·height·4, MAX_PIXELS, pixels.len())` is recovered exactly
when the u32 product does not wrap. -/
theorem trixie_C10_byte_count_bounds (w h len : Nat) :
    headerSize + byte_count w h len ≤ SHM_SIZE ∧
    byte_count w h len ≤ len ∧
    (w * h * 4 < 2 ^ 32 →
      byte_count w h len = min (min (w * h * 4) MAX_PIXELS) len) := by
  refine ⟨?_, ?_, ?_⟩
  · have h1 : byte_count w h len ≤ MAX_PIXELS :=
      le_trans (Nat.min_le_left _ _) (Nat.min_le_right _ _)
    unfold SHM_SIZE
    omega
  · exact Nat.min_le_right _ _
  · intro hfit
    unfold byte_count
    rw [Nat.mod_eq_of_lt hfit]

/-- Witness for C10 at a full-screen frame with a short slice. -/
theorem trixie_C10_witness :
    (3840 * 2160 * 4 < 2 ^ 32) ∧
    (headerSize + byte_count 3840 2160 50 ≤ SHM_SIZE ∧
     byte_count 3840 2160 50 ≤ 50 ∧
     (3840 * 2160 * 4 < 2 ^ 32 →
       byte_count 3840 2160 50 = min (min (3840 * 2160 * 4) MAX_PIXELS) 50)) :=
  ⟨by norm_num, trixie_C10_byte_count_bounds 3840 2160 50⟩

/-- Counterexample to C10 as stated: at width = height = 65536 the u32
product `width * height * 4` wraps to 0 (release semantics; a debug build
panics), so the code copies 0 bytes where the claimed formula demands
`min(width·height·4, MAX_PIXELS, 100) = 100`. -/
theorem trixie_C10_counterexample :
    byte_count 65536 65536 100 = 0 ∧
    min (min (65536 * 65536 * 4) MAX_PIXELS) 100 = 100 ∧
    byte_count 65536 65536 100 ≠ min (min (65536 * 65536 * 4) MAX_PIXELS) 100 := by
  refine ⟨?_, ?_, ?_⟩ <;> norm_num [byte_count, MAX_PIXELS]

/-- HashMap-insert lookup characterisation. -/
theorem alLookup_insert {α : Type} (k k' : String) (v : α)
    (l : List (String × α)) :
    alLookup k' (alInsert k v l) = if k = k' then some v else alLookup k' l := by
  induction l with
  | nil => simp [alInsert, alLookup]
  | cons hd t ih =>
      by_cases hk : hd.1 = k
      · by_cases h2 : k = k'
        · simp [alInsert, alLookup, hk, h2]
        · have h3 : ¬(hd.1 = k') := by rw [hk]; exact h2
          simp [alInsert, alLookup, hk, h2, h3]
      · by_cases h2 : hd.1 = k'
        · have h3 : ¬(k = k') := fun he => hk (by rw [he, ← h2])
          have h4 : ¬(k' = k) := fun he => h3 he.symm
          simp [alInsert, alLookup, hk, h2, h3, h4]
        · simp [alInsert, alLookup, hk, h2, ih]

/-- HashMap-remove lookup characterisation. -/
theorem alLookup_remove {α : Type} (k k' : String) (l : List (String × α)) :
    alLookup k' (alRemove k l) = if k' = k then none else alLookup k' l := by
  induction l with
  | nil => simp [alRemove, alLookup]
  | cons hd t ih =>
      by_cases hk : hd.1 = k
      · have hdrop : alRemove k (hd :: t) = alRemove k t := by
          simp [alRemove, List.filter, hk]
        rw [hdrop, ih]
        by_cases h3 : k' = k
        · simp [h3]
        · have h4 : ¬(hd.1 = k') := by rw [hk]; exact fun he => h3 he.symm
          simp [alLookup, h3, h4]
      · have hkeep : alRemove k (hd :: t) = hd :: alRemove k t := by
          simp [alRemove, List.filter, hk]
        rw [hkeep]
        by_cases h2 : hd.1 = k'
        · have h3 : ¬(k' = k) := fun he => hk (by rw [h2, he])
          simp [alLookup, h2, h3]
        · simp [alLookup, h2, ih]

/-- HashMap in-place value update does not change which keys are present. -/
theorem alLookup_update_isSome {α : Type} (k k' : String) (f : α → α)
    (l : List (String × α)) :
    (alLookup k' (alUpdate k f l)).isSome = (alLookup k' l).isSome := by
  induction l with
  | nil => simp [alUpdate, alLookup]
  | cons hd t ih =>
      have hcons : alUpdate k f (hd :: t) =
          (if hd.1 = k then (hd.1, f hd.2) else hd) :: alUpdate k f t := rfl
      rw [hcons]
      by_cases hk : hd.1 = k
      · rw [if_pos hk]
        by_cases h2 : hd.1 = k' <;> simp [alLookup, h2, ih]
      · rw [if_neg hk]
        by_cases h2 : hd.1 = k' <;> simp [alLookup, h2, ih]

/-- Key presence after HashMap-insert. -/
theorem alContains_insert {α : Type} (k k' : String) (v : α)
    (l : List (String × α)) :
    alContains k' (alInsert k v l) = if k = k' then true else alContains k' l := by
  unfold alContains
  rw [alLookup_insert]
  by_cases h : k = k' <;> simp [h]

/-- Key presence after HashMap-remove. -/
theorem alContains_remove {α : Type} (k k' : String) (l : List (String × α)) :
    alContains k' (alRemove k l) = if k' = k then false else alContains k' l := by
  unfold alContains
  rw [alLookup_remove]
  by_cases h : k' = k <;> simp [h]

/-- Key presence after HashMap value update. -/
theorem alContains_update {α : Type} (k k' : String) (f : α → α)
    (l : List (String × α)) :
    alContains k' (alUpdate k f l) = alContains k' l := by
  unfold alContains
  exact alLookup_update_isSome k k' f l

/-- Claim C1 (amended): the disjointness invariant — for every app_id at most
one of entries[app_id] and pending[app_id] exists — holds at every point of
every operation sequence PROVIDED request_placement is never invoked for an
app_id that already has a live entry. (Without that proviso it fails:
request_placement inserts into `pending` unconditionally, see the
counterexample.) try_claim removes the reservation and inserts the entry in
the same step, and remove clears both maps. -/
theorem trixie_C1_disjoint_guarded (m : EmbeddedManager) (ops : List EmOp)
    (hm : managerDisjoint m) (hops : goodOps m ops = true) :
    managerDisjoint (runOps m ops) := by
  induction ops generalizing m with
  | nil => exact hm
  | cons op t ih =>
      simp only [goodOps, Bool.and_eq_true] at hops
      refine ih (applyOp m op) ?_ hops.2
      cases op with
      | reqPlacement app p =>
          have hne : alContains app m.entries = false := by
            simpa using hops.1
          intro a ha
          obtain ⟨hae, hap⟩ := ha
          simp only [applyOp, request_placement] at hae hap
          rw [alContains_insert] at hap
          by_cases heq : app = a
          · rw [← heq] at hae
            rw [hne] at hae
            cases hae
          · rw [if_neg heq] at hap
            exact hm a ⟨hae, hap⟩
      | claim app su tl =>
          intro a ha
          obtain ⟨hae, hap⟩ := ha
          simp only [applyOp, try_claim] at hae hap
          cases hla : alLookup app m.pending with
          | none =>
              rw [hla] at hae hap
              exact hm a ⟨hae, hap⟩
          | some pend =>
              rw [hla] at hae hap
              simp only at hae hap
              rw [alContains_remove] at hap
              by_cases heq : a = app
              · rw [if_pos heq] at hap
                cases hap
              · rw [if_neg heq] at hap
                rw [alContains_insert, if_neg (fun he => heq he.symm)] at hae
                exact hm a ⟨hae, hap⟩
      | updPlacement app p =>
          intro a ha
          obtain ⟨hae, hap⟩ := ha
          simp only [applyOp, update_placement] at hae hap
          by_cases h1 : alContains app m.entries = true
          · rw [if_pos h1] at hae hap
            simp only at hae hap
            rw [alContains_update] at hae
            exact hm a ⟨hae, hap⟩
          · rw [if_neg h1] at hae hap
            by_cases h2 : alContains app m.pending = true
            · rw [if_pos h2] at hae hap
              simp only at hae hap
              rw [alContains_update] at hap
              exact hm a ⟨hae, hap⟩
            · rw [if_neg h2] at hae hap
              exact hm a ⟨hae, hap⟩
      | rem app =>
          intro a ha
          obtain ⟨hae, hap⟩ := ha
          simp only [applyOp, managerRemove] at hae hap
          rw [alContains_remove] at hae
          by_cases heq : a = app
          · rw [if_pos heq] at hae
            cases hae
          · rw [if_neg heq] at hae
            rw [alContains_remove, if_neg heq] at hap
            exact hm a ⟨hae, hap⟩

/-- Witness for C1: a spawn, claim, move, close sequence keeps the maps
disjoint. -/
theorem trixie_C1_witness :
    goodOps EmbeddedManager.empty
      [.reqPlacement "firefox" ⟨0, 0, 1920, 1080⟩,
       .claim "firefox" 1 2,
       .updPlacement "firefox" ⟨10, 10, 800, 600⟩,
       .rem "firefox",
       .reqPlacement "firefox" ⟨0, 0, 1920, 1080⟩] = true ∧
    managerDisjoint (runOps EmbeddedManager.empty
      [.reqPlacement "firefox" ⟨0, 0, 1920, 1080⟩,
       .claim "firefox" 1 2,
       .updPlacement "firefox" ⟨10, 10, 800, 600⟩,
       .rem "firefox",
       .reqPlacement "firefox" ⟨0, 0, 1920, 1080⟩]) :=
  ⟨by decide,
   trixie_C1_disjoint_guarded EmbeddedManager.empty _
     (fun a h => absurd h.1 (by simp [EmbeddedManager.empty, alContains, alLookup]))
     (by decide)⟩

/-- Counterexample to C1 as stated: request_placement for an app_id that is
already claimed (spawn, claim, spawn again) leaves the app_id present in BOTH
entries and pending. -/
theorem trixie_C1_counterexample :
    alContains "firefox" (runOps EmbeddedManager.empty
      [.reqPlacement "firefox" ⟨0, 0, 1920, 1080⟩,
       .claim "firefox" 1 2,
       .reqPlacement "firefox" ⟨0, 0, 1920, 1080⟩]).entries = true ∧
    alContains "firefox" (runOps EmbeddedManager.empty
      [.reqPlacement "firefox" ⟨0, 0, 1920, 1080⟩,
       .claim "firefox" 1 2,
       .reqPlacement "firefox" ⟨0, 0, 1920, 1080⟩]).pending = true := by
  decide

/-- Claim C5: evaluation of the shader-IPC paths at the toggle command for a
registry holding the enabled shader crt. The reply actually written back on
the socket (process_events handles each connection with the module-private
`dispatch_command` stub) is the internal error — never the documented
ok-with-shaders reply — while `dispatch_command_with_registry`, which the
file's comments designate as the real dispatcher but which no caller in the
repository invokes, implements exactly the claimed flip / flip-back
behaviour. -/
theorem trixie_C5_socket_toggle_stub :
    socketReply (.toggle "crt") crtReg =
      .err "internal: dispatch called without registry context" ∧
    (∀ resp : List (String × Bool × String),
      socketReply (.toggle "crt") crtReg ≠ .ok resp) ∧
    enabledOf crtReg "crt" = some true ∧
    (dispatch_command_with_registry noFsChange (.toggle "crt") crtReg []).1 =
      respOk (dispatch_command_with_registry noFsChange (.toggle "crt") crtReg []).2.1 ∧
    enabledOf
      (dispatch_command_with_registry noFsChange (.toggle "crt") crtReg []).2.1
      "crt" = some false ∧
    enabledOf
      (dispatch_command_with_registry noFsChange (.toggle "crt")
        (dispatch_command_with_registry noFsChange (.toggle "crt") crtReg []).2.1
        []).2.1 "crt" = some true := by
  refine ⟨rfl, ?_, by decide, by decide, by decide, by decide⟩
  intro resp h
  cases h

/-- Every command a single cell emits stays inside the viewport. -/
theorem cellCmds_in_viewport (cb : CellBuffer) (cell_w cell_h vp_w vp_h row col : Nat) :
    ∀ cmd ∈ cellCmds cb cell_w cell_h vp_w vp_h row col,
      cmdInViewport cell_w vp_w vp_h cmd := by
  intro cmd hmem
  simp only [cellCmds] at hmem
  split at hmem
  · simp at hmem
  · rename_i hcond
    rw [List.mem_append] at hmem
    have hpx : col * cell_w < vp_w := by omega
    have hpy : row * cell_h < vp_h := by omega
    rcases hmem with hbg | hgl
    · split at hbg
      · simp at hbg
      · simp only [List.mem_singleton] at hbg
        subst hbg
        simp only [cmdInViewport]
        have h1 := Nat.min_le_right cell_w (vp_w - col * cell_w)
        have h2 := Nat.min_le_right cell_h (vp_h - row * cell_h)
        omega
    · split at hgl
      · simp only [List.mem_singleton] at hgl
        subst hgl
        exact ⟨hpx, hpy, rfl⟩
      · simp at hgl

/-- Claim C4 (amended): for cell_w, cell_h > 0 every FillRect produced by
build_frame_cmds lies inside `[0, vp_w) × [0, vp_h)` and every Text origin
lies inside the viewport with its run clipped to `max_width = cell_w`
(regardless of the chrome contents); the recomputed grid satisfies
`cols·cell_w ≤ vp_w` and `rows·cell_h ≤ vp_h` whenever the viewport is at
least one cell in each dimension. In the edge case vp_w < cell_w (or
vp_h < cell_h) the recompute clamps `cols` (`rows`) up to 1 and the grid
inequality FAILS — see the counterexample. -/
theorem trixie_C4_chrome_in_viewport (content : List TwmCell)
    (oldCols oldRows cell_w cell_h vp_w vp_h : Nat)
    (hw : 0 < cell_w) (hh : 0 < cell_h) :
    (∀ cmd ∈ build_frame_cmds_geom content oldCols oldRows cell_w cell_h vp_w vp_h,
       cmdInViewport cell_w vp_w vp_h cmd) ∧
    (cell_w ≤ vp_w →
      (gridDims oldCols oldRows cell_w cell_h vp_w vp_h).1 * cell_w ≤ vp_w) ∧
    (cell_h ≤ vp_h →
      (gridDims oldCols oldRows cell_w cell_h vp_w vp_h).2 * cell_h ≤ vp_h) := by
  refine ⟨?_, ?_, ?_⟩
  · intro cmd hmem
    simp only [build_frame_cmds_geom, to_draw_cmds, List.mem_flatMap,
      List.mem_range] at hmem
    obtain ⟨row, _, col, _, hcc⟩ := hmem
    exact cellCmds_in_viewport _ _ _ _ _ _ _ cmd hcc
  · intro hcw
    have h1 : 1 ≤ vp_w / cell_w := (Nat.one_le_div_iff hw).mpr hcw
    simp only [gridDims, if_pos (And.intro hw hh), max_eq_left h1]
    calc vp_w / cell_w % 2 ^ 16 * cell_w
        ≤ vp_w / cell_w * cell_w := Nat.mul_le_mul_right _ (Nat.mod_le _ _)
      _ ≤ vp_w := Nat.div_mul_le_self _ _
  · intro hch
    have h1 : 1 ≤ vp_h / cell_h := (Nat.one_le_div_iff hh).mpr hch
    simp only [gridDims, if_pos (And.intro hw hh), max_eq_left h1]
    calc vp_h / cell_h % 2 ^ 16 * cell_h
        ≤ vp_h / cell_h * cell_h := Nat.mul_le_mul_right _ (Nat.mod_le _ _)
      _ ≤ vp_h := Nat.div_mul_le_self _ _

/-- Witness for C4 on an 8×16 cell and a 1920×1080 viewport with one default
cell of content. -/
theorem trixie_C4_witness :
    (0 < 8) ∧ (0 < 16) ∧
    ((∀ cmd ∈ build_frame_cmds_geom [TwmCell.default] 0 0 8 16 1920 1080,
        cmdInViewport 8 1920 1080 cmd) ∧
     (8 ≤ 1920 → (gridDims 0 0 8 16 1920 1080).1 * 8 ≤ 1920) ∧
     (16 ≤ 1080 → (gridDims 0 0 8 16 1920 1080).2 * 16 ≤ 1080)) :=
  ⟨by decide, by decide,
   trixie_C4_chrome_in_viewport [TwmCell.default] 0 0 8 16 1920 1080
     (by decide) (by decide)⟩

/-- Counterexample to C4 as stated: in the claimed edge case vp_w < cell_w
(cell 8×16, viewport 4×8) the recompute clamps cols to 1, and
`cols·cell_w = 8 > 4 = vp_w`. -/
theorem trixie_C4_counterexample :
    (0 < 8) ∧ (0 < 16) ∧ (gridDims 0 0 8 16 4 8).1 = 1 ∧
    ¬((gridDims 0 0 8 16 4 8).1 * 8 ≤ 4) := by
  decide

/-- Filtering a mapped list counts the preimages that pass. -/
theorem length_filter_map_eq {α β : Type} (f : α → β) (p : β → Bool)
    (l : List α) :
    ((l.map f).filter p).length = (l.filter (fun x => p (f x))).length := by
  induction l with
  | nil => rfl
  | cons hd t ih => simp only [List.map_cons, List.filter] ; split <;> simp [ih]

theorem byteLen_cons (c : Char) (l : List Char) :
    byteLen (c :: l) = c.utf8Size + byteLen l := by
  simp [byteLen]

theorem bytePos_zero (t : List Char) : bytePos t 0 = 0 := by
  simp [bytePos, byteLen]

theorem bytePos_cons_succ (c : Char) (rest : List Char) (k : Nat) :
    bytePos (c :: rest) (k + 1) = c.utf8Size + bytePos rest k := by
  simp [bytePos, List.take, byteLen]

/-- The incremental byte-offset walk of the source computes exactly the
spec's count of character positions whose start byte lies in the interval. -/
theorem sliceCharCountGo_eq (a b : Nat) (t : List Char) (o : Nat) :
    sliceCharCountGo a b t o =
      ((List.range t.length).filter
        (fun k => decide (a ≤ o + bytePos t k ∧ o + bytePos t k < b))).length := by
  induction t generalizing o with
  | nil => simp [sliceCharCountGo]
  | cons c rest ih =>
      have hstep : sliceCharCountGo a b (c :: rest) o =
          (if a ≤ o ∧ o < b then 1 else 0) +
            sliceCharCountGo a b rest (o + c.utf8Size) := rfl
      have hmap : ((List.map Nat.succ (List.range rest.length)).filter
            (fun k => decide (a ≤ o + bytePos (c :: rest) k ∧
              o + bytePos (c :: rest) k < b))).length =
          ((List.range rest.length).filter
            (fun k => decide (a ≤ (o + c.utf8Size) + bytePos rest k ∧
              (o + c.utf8Size) + bytePos rest k < b))).length := by
        rw [length_filter_map_eq]
        congr 1
        apply List.filter_congr
        intro k _
        rw [show Nat.succ k = k + 1 from rfl, bytePos_cons_succ,
          decide_eq_decide]
        omega
      rw [hstep, ih, List.length_cons, List.range_succ_eq_map,
        List.filter_cons]
      by_cases hc : a ≤ o ∧ o < b
      · rw [if_pos hc,
          if_pos (show (decide (a ≤ o + bytePos (c :: rest) 0 ∧
            o + bytePos (c :: rest) 0 < b)) = true by
              simp [bytePos_zero, hc]),
          List.length_cons, hmap]
        omega
      · rw [if_neg hc,
          if_neg (show ¬(decide (a ≤ o + bytePos (c :: rest) 0 ∧
            o + bytePos (c :: rest) 0 < b)) = true by
              simp [bytePos_zero, hc]),
          hmap]
        omega

theorem sliceCharCount_eq_spec (t : List Char) (a b : Nat) :
    sliceCharCount t a b = specCharsBetween t a b := by
  unfold sliceCharCount specCharsBetween
  rw [sliceCharCountGo_eq]
  congr 1
  apply List.filter_congr
  intro k _
  simp

/-- The source loop and the spec formula produce the same shaped glyphs. -/
theorem shapeGo_eq_spec (t : List Char) (infos : List (Nat × Nat)) :
    shapeGo t infos = (List.range infos.length).map (fun i =>
      (⟨(infos.getD i (0, 0)).1,
        max (specCharsBetween t (infos.getD i (0, 0)).2
          (if i + 1 < infos.length then (infos.getD (i + 1) (0, 0)).2
           else byteLen t)) 1⟩ : ShapedGlyph)) := by
  induction infos with
  | nil => simp [shapeGo]
  | cons hd rest ih =>
      obtain ⟨gid, cl⟩ := hd
      simp only [shapeGo, List.length_cons, List.range_succ_eq_map,
        List.map_cons, List.map_map]
      congr 1
      · rw [sliceCharCount_eq_spec]
        cases rest with
        | nil => simp
        | cons hd2 r2 => simp
      · rw [ih]
        apply List.map_congr_left
        intro i _
        simp [Function.comp, List.getD_cons_succ, Nat.succ_lt_succ_iff]

/-- Claim C8: shape of the empty run is empty; a non-empty run yields one
ShapedGlyph per shaper output glyph; and the source computation coincides
with the spec's cluster-width formula (count of characters whose start byte
lies between this cluster's start byte and the next one or the end of input,
min 1) for every run and every shaper output. -/
theorem trixie_C8_shape_clusters (t : List Char) (infos : List (Nat × Nat)) :
    shape [] infos = [] ∧
    (t ≠ [] → (shape t infos).length = infos.length) ∧
    shape t infos = specShape t infos := by
  refine ⟨by simp [shape], ?_, ?_⟩
  · intro ht
    simp only [shape, if_neg ht]
    rw [shapeGo_eq_spec]
    simp
  · by_cases ht : t = []
    · simp [shape, specShape, ht]
    · simp only [shape, specShape, if_neg ht]
      exact shapeGo_eq_spec t infos

/-- Witness for C8 on the two-character run with one ligature glyph covering
both characters: cluster_width = 2. -/
theorem trixie_C8_witness :
    (shape [] [(77, 0)] = [] ∧
     (([Char.ofNat 61, Char.ofNat 62] : List Char) ≠ [] →
       (shape [Char.ofNat 61, Char.ofNat 62] [(77, 0)]).length = 1) ∧
     shape [Char.ofNat 61, Char.ofNat 62] [(77, 0)] =
       specShape [Char.ofNat 61, Char.ofNat 62] [(77, 0)]) ∧
    shape [Char.ofNat 61, Char.ofNat 62] [(77, 0)] = [⟨77, 2⟩] :=
  ⟨by
      have h := trixie_C8_shape_clusters [Char.ofNat 61, Char.ofNat 62] [(77, 0)]
      exact ⟨h.1, fun hne => (h.2.1 hne), h.2.2⟩,
   by decide⟩

/-- Folding a buffer through length-preserving writes preserves its length. -/
theorem foldl_buf_length {β : Type} (g : List Nat → β → List Nat)
    (hg : ∀ acc b, (g acc b).length = acc.length) :
    ∀ (l : List β) (p : List Nat), (l.foldl g p).length = p.length := by
  intro l
  induction l with
  | nil => intro p; rfl
  | cons b t ih => intro p; rw [List.foldl_cons, ih, hg]

@[simp]
theorem buf_length (w h : Nat) : (buf w h).length = w * h * 4 := by
  simp [buf]

@[simp]
theorem bset_length (p : List Nat) (w h : Nat) (x y : Int) (a : Nat) :
    (bset p w h x y a).length = p.length := by
  unfold bset
  split
  · rfl
  · dsimp only
    split
    · simp
    · rfl

@[simp]
theorem set_f_length (p : List Nat) (w h : Nat) (x y : Int) (a : ℚ) :
    (set_f p w h x y a).length = p.length :=
  bset_length p w h x y (ratToU8 a)

theorem intFor_length (s e : Int) (f : List Nat → Int → List Nat)
    (p : List Nat) (hf : ∀ acc i, (f acc i).length = acc.length) :
    (intFor s e f p).length = p.length :=
  foldl_buf_length _ (fun acc _ => hf acc _) _ p

@[simp]
theorem rect_length (p : List Nat) (w h : Nat) (x0 y0 x1 y1 : Int) :
    (rect p w h x0 y0 x1 y1).length = p.length := by
  unfold rect
  apply intFor_length
  intro acc y
  apply intFor_length
  intro acc2 x
  exact bset_length acc2 w h x y 0xFF

@[simp]
theorem hl_length (p : List Nat) (w h : Nat) (cy : Int) (t : Nat) :
    (hl p w h cy t).length = p.length := by
  simp [hl]

@[simp]
theorem vl_length (p : List Nat) (w h : Nat) (cx : Int) (t : Nat) :
    (vl p w h cx t).length = p.length := by
  simp [vl]

@[simp]
theorem hl_l_length (p : List Nat) (w h : Nat) (cy : Int) (t : Nat) :
    (hl_l p w h cy t).length = p.length := by
  simp [hl_l]

@[simp]
theorem hl_r_length (p : List Nat) (w h : Nat) (cy : Int) (t : Nat) :
    (hl_r p w h cy t).length = p.length := by
  simp [hl_r]

@[simp]
theorem vl_t_length (p : List Nat) (w h : Nat) (cx : Int) (t : Nat) :
    (vl_t p w h cx t).length = p.length := by
  simp [vl_t]

@[simp]
theorem vl_b_length (p : List Nat) (w h : Nat) (cx : Int) (t : Nat) :
    (vl_b p w h cx t).length = p.length := by
  simp [vl_b]

@[simp]
theorem dbl_hl_length (p : List Nat) (w h : Nat) (cy : Int) (t : Nat) :
    (dbl_hl p w h cy t).length = p.length := by
  simp [dbl_hl]

@[simp]
theorem dbl_vl_length (p : List Nat) (w h : Nat) (cx : Int) (t : Nat) :
    (dbl_vl p w h cx t).length = p.length := by
  simp [dbl_vl]

@[simp]
theorem dbl_hl_l_length (p : List Nat) (w h : Nat) (cy : Int) (t : Nat) :
    (dbl_hl_l p w h cy t).length = p.length := by
  simp [dbl_hl_l]

@[simp]
theorem dbl_hl_r_length (p : List Nat) (w h : Nat) (cy : Int) (t : Nat) :
    (dbl_hl_r p w h cy t).length = p.length := by
  simp [dbl_hl_r]

@[simp]
theorem dbl_vl_t_length (p : List Nat) (w h : Nat) (cx : Int) (t : Nat) :
    (dbl_vl_t p w h cx t).length = p.length := by
  simp [dbl_vl_t]

@[simp]
theorem dbl_vl_b_length (p : List Nat) (w h : Nat) (cx : Int) (t : Nat) :
    (dbl_vl_b p w h cx t).length = p.length := by
  simp [dbl_vl_b]

@[simp]
theorem draw_bezier_curve_length (p : List Nat) (w h : Nat) (t : Nat)
    (s c1 c2 e : ℚ × ℚ) :
    (draw_bezier_curve p w h t s c1 c2 e).length = p.length := by
  unfold draw_bezier_curve
  apply foldl_buf_length
  intro acc i
  dsimp only
  apply intFor_length
  intro a dy
  apply intFor_length
  intro a2 dx
  exact bset_length a2 w h _ _ 0xFF

@[simp]
theorem rounded_corner_length (p : List Nat) (w h : Nat) (t : Nat)
    (which : Nat) :
    (rounded_corner p w h t which).length = p.length := by
  simp [rounded_corner]

@[simp]
theorem dashed_h_length (p : List Nat) (w h : Nat) (cy : Int) (t n : Nat) :
    (dashed_h p w h cy t n).length = p.length := by
  unfold dashed_h
  apply foldl_buf_length
  intro acc i
  simp

@[simp]
theorem dashed_v_length (p : List Nat) (w h : Nat) (cx : Int) (t n : Nat) :
    (dashed_v p w h cx t n).length = p.length := by
  unfold dashed_v
  apply foldl_buf_length
  intro acc i
  simp

@[simp]
theorem diag_length (p : List Nat) (w h : Nat) (dr : Bool) (t : Nat) :
    (diag p w h dr t).length = p.length := by
  unfold diag
  apply foldl_buf_length
  intro acc x
  dsimp only
  apply intFor_length
  intro a d
  exact bset_length a w h _ _ 0xFF

@[simp]
theorem diag_seg_length (p : List Nat) (w h : Nat) (x0 y0 x1 y1 : Int)
    (t : Nat) :
    (diag_seg p w h x0 y0 x1 y1 t).length = p.length := by
  unfold diag_seg
  apply foldl_buf_length
  intro acc i
  dsimp only
  apply intFor_length
  intro a tt
  split <;> simp

@[simp]
theorem shade_length (p : List Nat) (w h : Nat) (a : Nat) :
    (shade p w h a).length = p.length := by
  unfold shade
  apply foldl_buf_length
  intro acc y
  apply foldl_buf_length
  intro acc2 x
  split <;> simp

@[simp]
theorem circle_aa_length (p : List Nat) (w h : Nat) (cx cy r : ℚ) :
    (circle_aa p w h cx cy r).length = p.length := by
  unfold circle_aa
  apply intFor_length
  intro acc y
  apply intFor_length
  intro acc2 x
  dsimp only
  split <;> simp

@[simp]
theorem draw_braille_length (cp : Nat) (w h : Nat) :
    (draw_braille cp w h).length = w * h * 4 := by
  unfold draw_braille
  dsimp only
  split
  · simp
  · rw [foldl_buf_length]
    · simp
    · intro acc bit
      split <;> simp

@[simp]
theorem draw_pl_right_solid_length (w h : Nat) :
    (draw_pl_right_solid w h).length = w * h * 4 := by
  unfold draw_pl_right_solid
  rw [foldl_buf_length]
  · simp
  · intro acc y
    dsimp only
    apply intFor_length
    intro a x
    simp

@[simp]
theorem draw_pl_left_solid_length (w h : Nat) :
    (draw_pl_left_solid w h).length = w * h * 4 := by
  unfold draw_pl_left_solid
  rw [foldl_buf_length]
  · simp
  · intro acc y
    dsimp only
    apply intFor_length
    intro a x
    simp

@[simp]
theorem draw_pl_right_hollow_length (w h : Nat) :
    (draw_pl_right_hollow w h).length = w * h * 4 := by
  simp [draw_pl_right_hollow]

@[simp]
theorem draw_pl_left_hollow_length (w h : Nat) :
    (draw_pl_left_hollow w h).length = w * h * 4 := by
  simp [draw_pl_left_hollow]

set_option maxHeartbeats 3200000 in
@[simp]
theorem draw_box_length (cp : Nat) (w h : Nat) :
    (draw_box cp w h).length = w * h * 4 := by
  unfold draw_box
  split <;>
    simp only [hl_length, vl_length, hl_l_length, hl_r_length, vl_t_length,
      vl_b_length, dbl_hl_length, dbl_vl_length, dbl_hl_l_length,
      dbl_hl_r_length, dbl_vl_t_length, dbl_vl_b_length, dashed_h_length,
      dashed_v_length, diag_length, rounded_corner_length, buf_length]

set_option maxHeartbeats 3200000 in
@[simp]
theorem draw_block_length (cp : Nat) (w h : Nat) :
    (draw_block cp w h).length = w * h * 4 := by
  unfold draw_block
  simp only [apply_ite List.length, rect_length, shade_length, buf_length,
    ite_self]

/-- Any bitmap the synthetic rasteriser returns is exactly
`cell_w × cell_h` RGBA pixels. -/
theorem render_box_char_length (ch : Char) (cw chh : Nat) (bm : List Nat)
    (h : render_box_char ch cw chh = some bm) :
    bm.length = cw * chh * 4 := by
  unfold render_box_char at h
  by_cases h1 : 0x2500 ≤ ch.toNat ∧ ch.toNat ≤ 0x257F
  · rw [if_pos h1] at h
    simp only [Option.some.injEq] at h
    subst h; simp
  rw [if_neg h1] at h
  by_cases h2 : 0x2580 ≤ ch.toNat ∧ ch.toNat ≤ 0x259F
  · rw [if_pos h2] at h
    simp only [Option.some.injEq] at h
    subst h; simp
  rw [if_neg h2] at h
  by_cases h3 : 0x2800 ≤ ch.toNat ∧ ch.toNat ≤ 0x28FF
  · rw [if_pos h3] at h
    simp only [Option.some.injEq] at h
    subst h; simp
  rw [if_neg h3] at h
  by_cases h4 : ch.toNat = 0xE0B0
  · rw [if_pos h4] at h
    simp only [Option.some.injEq] at h
    subst h; simp
  rw [if_neg h4] at h
  by_cases h5 : ch.toNat = 0xE0B2
  · rw [if_pos h5] at h
    simp only [Option.some.injEq] at h
    subst h; simp
  rw [if_neg h5] at h
  by_cases h6 : ch.toNat = 0xE0B1
  · rw [if_pos h6] at h
    simp only [Option.some.injEq] at h
    subst h; simp
  rw [if_neg h6] at h
  by_cases h7 : ch.toNat = 0xE0B3
  · rw [if_pos h7] at h
    simp only [Option.some.injEq] at h
    subst h; simp
  rw [if_neg h7] at h
  cases h

/-- The synthetic rasteriser covers every synthetic codepoint. -/
theorem render_box_char_some (ch : Char) (cw chh : Nat)
    (h : is_synthetic ch.toNat = true) :
    ∃ bm, render_box_char ch cw chh = some bm := by
  simp only [is_synthetic, Bool.or_eq_true, Bool.and_eq_true,
    decide_eq_true_eq] at h
  unfold render_box_char
  by_cases h1 : 0x2500 ≤ ch.toNat ∧ ch.toNat ≤ 0x257F
  · rw [if_pos h1]; exact ⟨_, rfl⟩
  rw [if_neg h1]
  by_cases h2 : 0x2580 ≤ ch.toNat ∧ ch.toNat ≤ 0x259F
  · rw [if_pos h2]; exact ⟨_, rfl⟩
  rw [if_neg h2]
  by_cases h3 : 0x2800 ≤ ch.toNat ∧ ch.toNat ≤ 0x28FF
  · rw [if_pos h3]; exact ⟨_, rfl⟩
  rw [if_neg h3]
  by_cases h4 : ch.toNat = 0xE0B0
  · rw [if_pos h4]; exact ⟨_, rfl⟩
  rw [if_neg h4]
  by_cases h5 : ch.toNat = 0xE0B2
  · rw [if_pos h5]; exact ⟨_, rfl⟩
  rw [if_neg h5]
  by_cases h6 : ch.toNat = 0xE0B1
  · rw [if_pos h6]; exact ⟨_, rfl⟩
  rw [if_neg h6]
  by_cases h7 : ch.toNat = 0xE0B3
  · rw [if_pos h7]; exact ⟨_, rfl⟩
  exfalso
  omega

/-- When the atlas blitter returns a GlyphInfo it carries exactly the
bearings and advance it was given. -/
theorem blit_bitmap_fst_fields (a : GlyphAtlas) (bitmap : List Nat)
    (w h : Nat) (bx bry adv : Int) (syn : Bool) (info : GlyphInfo)
    (hsome : (blit_bitmap a bitmap w h bx bry adv syn).1 = some info) :
    info.bearing_x = bx ∧ info.bearing_y = bry ∧ info.advance = adv := by
  cases syn <;>
    (unfold blit_bitmap at hsome
     dsimp only at hsome
     repeat' split at hsome)
  all_goals dsimp only at hsome
  all_goals try contradiction
  all_goals
    (simp only [Option.some.injEq] at hsome
     rw [← hsome]
     exact ⟨rfl, rfl, rfl⟩)

/-- A successful cache lookup is a cache membership. -/
theorem cacheLookup_mem (cache : List (GlyphKey × Option GlyphInfo))
    (k : GlyphKey) (v : Option GlyphInfo)
    (h : cacheLookup cache k = some v) : (k, v) ∈ cache := by
  induction cache with
  | nil => cases h
  | cons hd t ih =>
      obtain ⟨k1, v1⟩ := hd
      unfold cacheLookup at h
      split at h
      · rename_i heq
        simp only [Option.some.injEq] at h
        subst heq
        subst h
        exact List.mem_cons_self _ _
      · exact List.mem_cons_of_mem _ (ih h)

/-- Claim C7: for every synthetic codepoint (box drawing U+2500..U+259F,
braille U+2800..U+28FF, Powerline U+E0B0..U+E0B3 — exactly `is_synthetic`),
whenever `glyph` returns Some info on an atlas whose cached synthetic
entries are sound, the info carries bearing_x = 0, bearing_y = ascender and
advance = cell_w, and the synthetic rasteriser produces a bitmap of exactly
cell_w × cell_h pixels (cell_w·cell_h·4 RGBA bytes) for that codepoint. -/
theorem trixie_C7_synthetic_metrics (a : GlyphAtlas)
    (hinv : atlasCacheInv a) (c : Char)
    (hc : is_synthetic c.toNat = true) (bold italic : Bool)
    (info : GlyphInfo) (h : (glyph a c bold italic).1 = some info) :
    info.bearing_x = 0 ∧ info.bearing_y = a.ascender ∧
    info.advance = (a.cell_w : Int) ∧
    ∃ bm, render_box_char c a.cell_w a.cell_h = some bm ∧
      bm.length = a.cell_w * a.cell_h * 4 := by
  obtain ⟨bm, hbm⟩ := render_box_char_some c a.cell_w a.cell_h hc
  have hlen := render_box_char_length c a.cell_w a.cell_h bm hbm
  unfold glyph at h
  cases hcache : cacheLookup a.cache ⟨c, bold, italic⟩ with
  | some cached =>
      rw [hcache] at h
      simp only at h
      subst h
      have hmem := cacheLookup_mem a.cache ⟨c, bold, italic⟩ _ hcache
      obtain ⟨h1, h2, h3⟩ := hinv _ hmem hc info rfl
      exact ⟨h1, h2, h3, bm, hbm, hlen⟩
  | none =>
      rw [hcache] at h
      simp only at h
      rw [show (rasterise_char a c bold italic).1 =
          (blit_bitmap a bm a.cell_w a.cell_h 0 a.ascender (a.cell_w : Int) true).1 by
        unfold rasterise_char
        rw [if_pos hc, hbm]] at h
      obtain ⟨h1, h2, h3⟩ := blit_bitmap_fst_fields a bm a.cell_w a.cell_h
        0 a.ascender (a.cell_w : Int) true info h
      exact ⟨h1, h2, h3, bm, hbm, hlen⟩

/-- The blitter never touches the cache nor the font metrics. -/
theorem blit_bitmap_snd_state (a : GlyphAtlas) (bm : List Nat) (w h : Nat)
    (bx bry adv : Int) (syn : Bool) :
    ((blit_bitmap a bm w h bx bry adv syn).2).cache = a.cache ∧
    ((blit_bitmap a bm w h bx bry adv syn).2).ascender = a.ascender ∧
    ((blit_bitmap a bm w h bx bry adv syn).2).cell_w = a.cell_w := by
  unfold blit_bitmap blit_row_advance
  dsimp only
  repeat' split
  all_goals exact ⟨rfl, rfl, rfl⟩

/-- The font outline path never touches the cache nor the font metrics. -/
theorem fontPath_snd_state (a : GlyphAtlas) (ch : Char) (bold italic : Bool) :
    ((fontPath a ch bold italic).2).cache = a.cache ∧
    ((fontPath a ch bold italic).2).ascender = a.ascender ∧
    ((fontPath a ch bold italic).2).cell_w = a.cell_w := by
  unfold fontPath
  cases hog : a.fontOutline ch bold italic with
  | none => exact ⟨rfl, rfl, rfl⟩
  | some og =>
      dsimp only
      split
      · exact ⟨rfl, rfl, rfl⟩
      · exact blit_bitmap_snd_state a og.bitmap og.w og.h og.bearing_x
          og.bearing_y og.advance false

/-- Rasterisation never touches the cache nor the font metrics. -/
theorem rasterise_char_snd_state (a : GlyphAtlas) (ch : Char)
    (bold italic : Bool) :
    ((rasterise_char a ch bold italic).2).cache = a.cache ∧
    ((rasterise_char a ch bold italic).2).ascender = a.ascender ∧
    ((rasterise_char a ch bold italic).2).cell_w = a.cell_w := by
  unfold rasterise_char
  split
  · split
    · rename_i bm hbm
      exact blit_bitmap_snd_state a bm a.cell_w a.cell_h 0
        a.ascender (a.cell_w : Int) true
    · exact fontPath_snd_state a ch bold italic
  · exact fontPath_snd_state a ch bold italic

/-- Memoised lookups preserve the synthetic-cache soundness invariant, so
the C7 hypothesis holds in every state reachable from a fresh atlas. -/
theorem glyph_preserves_atlasCacheInv (a : GlyphAtlas)
    (hinv : atlasCacheInv a) (ch : Char) (bold italic : Bool) :
    atlasCacheInv (glyph a ch bold italic).2 := by
  unfold glyph
  cases hc : cacheLookup a.cache ⟨ch, bold, italic⟩ with
  | some cached => exact hinv
  | none =>
      obtain ⟨hca, has, hcw⟩ := rasterise_char_snd_state a ch bold italic
      intro kv hkv hsyn info hval
      dsimp only at hkv
      rcases List.mem_cons.mp hkv with heq | hmem
      · subst heq
        dsimp only at hsyn hval
        obtain ⟨bm, hbm⟩ := render_box_char_some ch a.cell_w a.cell_h hsyn
        rw [show (rasterise_char a ch bold italic).1 =
            (blit_bitmap a bm a.cell_w a.cell_h 0 a.ascender (a.cell_w : Int) true).1 by
          unfold rasterise_char
          rw [if_pos hsyn, hbm]] at hval
        obtain ⟨h1, h2, h3⟩ := blit_bitmap_fst_fields a bm a.cell_w a.cell_h
          0 a.ascender (a.cell_w : Int) true info hval
        rw [has, hcw]
        exact ⟨h1, h2, h3⟩
      · rw [hca] at hmem
        obtain ⟨h1, h2, h3⟩ := hinv kv hmem hsyn info hval
        rw [has, hcw]
        exact ⟨h1, h2, h3⟩

/-- Witness for C7: on the fresh 1×1-cell test atlas, looking up U+2500
(light horizontal line) yields a GlyphInfo with the synthetic metrics. -/
theorem trixie_C7_witness :
    atlasCacheInv testAtlas ∧
    is_synthetic (Char.ofNat 0x2500).toNat = true ∧
    ∃ info, (glyph testAtlas (Char.ofNat 0x2500) false false).1 = some info ∧
      info.bearing_x = 0 ∧ info.bearing_y = testAtlas.ascender ∧
      info.advance = (testAtlas.cell_w : Int) ∧
      ∃ bm, render_box_char (Char.ofNat 0x2500) testAtlas.cell_w testAtlas.cell_h =
          some bm ∧
        bm.length = testAtlas.cell_w * testAtlas.cell_h * 4 := by
  have hinv : atlasCacheInv testAtlas := by
    intro kv hkv
    simp [testAtlas] at hkv
  have hsome : ((glyph testAtlas (Char.ofNat 0x2500) false false).1).isSome = true := by
    decide
  obtain ⟨info, hinfo⟩ := Option.isSome_iff_exists.mp hsome
  have hmain := trixie_C7_synthetic_metrics testAtlas hinv (Char.ofNat 0x2500)
    (by decide) false false info hinfo
  exact ⟨hinv, by decide, info, hinfo, hmain.1, hmain.2.1, hmain.2.2.1, hmain.2.2.2⟩

end Trixie

